import Mathlib

/-!
Verification of the zi-mendelian variant-prioritisation pipeline
(`bin/zim_prioritisation.py`).

The program is a single-pass pandas pipeline: load an ANNOVAR annotation
table and a Zimbabwe cohort frequency table, join them on
(Chr, Start, Ref, Alt), compute derived columns (row-wise gnomAD maxima,
an impact tier, a joined cohort frequency), filter by three predicates,
and write the merged table plus the filtered subset.

We embed tables shallowly: a row is an association list from column name
to cell, a table is a column list plus a row list.  Cells model the pandas
value universe needed by this program: strings, finite numbers (as exact
rationals), the two float infinities, NaN (which doubles as "missing"),
and booleans.  Machine-float rounding is immaterial to every property
proved here; the float behaviours that do matter (NaN propagation and
comparison, division by zero producing a signed infinity, `fillna`
replacing only NaN) are modelled explicitly.
-/

namespace Zim

/-- A pandas cell value: string, finite number (exact rational in place of
a float; no property here depends on rounding), +inf, -inf, NaN (pandas
"missing"), or boolean. -/
inductive Cell where
  | str : String → Cell
  | num : Rat → Cell
  | pinf : Cell
  | ninf : Cell
  | nan : Cell
  | bool : Bool → Cell
deriving DecidableEq, Repr

/-- A data-frame row: association list from column name to cell. -/
abbrev Row := List (String × Cell)

/-- A data frame: ordered column names plus rows. -/
structure Table where
  cols : List String
  rows : List Row
deriving DecidableEq, Repr

/-- Read a cell from a row (first matching key; absent keys read as NaN,
matching a missing value). -/
def getCell : Row → String → Cell
  | [], _ => Cell.nan
  | (k, v) :: rest, c => if k = c then v else getCell rest c

/-- Write a cell in a row: replace the first entry with that key, or
append a new entry (pandas column assignment). -/
def setCell : Row → String → Cell → Row
  | [], c, v => [(c, v)]
  | (k, w) :: rest, c, v => if k = c then (c, v) :: rest else (k, w) :: setCell rest c v

/-- Column assignment `df[name] = f(row)`: sets the cell in every row and
appends the column name if new. -/
def setColWith (t : Table) (name : String) (f : Row → Cell) : Table :=
  { cols := if t.cols.contains name then t.cols else t.cols ++ [name],
    rows := t.rows.map (fun r => setCell r name (f r)) }

/-- Character-list prefix test. -/
def charsHasPre (pat s : List Char) : Bool :=
  match pat, s with
  | [], _ => true
  | _, [] => false
  | p :: ps, q :: qs => p == q && charsHasPre ps qs

/-- Character-list infix test: does `pat` occur in `s`? -/
def charsInfix (pat s : List Char) : Bool :=
  match s with
  | [] => pat.isEmpty
  | c :: rest => charsHasPre pat (c :: rest) || charsInfix pat rest

/-- Python `s.lower()` / `str.lower` (character-wise; the identifiers this
program lowers are ASCII).  Written over the character list so that it
evaluates inside the kernel. -/
def strLower (s : String) : String := ⟨s.data.map Char.toLower⟩

/-- Python `s.startswith(pat)`. -/
def strStarts (s pat : String) : Bool := charsHasPre pat.data s.data

/-- Whitespace trim (as `pd.to_numeric` tolerates surrounding
whitespace). -/
def strTrim (s : String) : String :=
  ⟨((s.data.dropWhile Char.isWhitespace).reverse.dropWhile Char.isWhitespace).reverse⟩

/-- Substring test: true iff `pat` occurs in `s` (Python `pat in s`). -/
def strContains (s pat : String) : Bool := charsInfix pat.data s.data

/-- Digit-string value. -/
def digitsVal (cs : List Char) : Nat :=
  cs.foldl (fun a c => a * 10 + (c.toNat - 48)) 0

/-- Exact rational division, written with `mkRat` so that it evaluates
inside the kernel (`Rat.div` is irreducible); `ratDiv_eq_div` below
proves it equal to ordinary division. -/
def ratDiv (a b : Rat) : Rat :=
  if 0 ≤ b.num then mkRat (a.num * (b.den : Int)) (a.den * b.num.natAbs)
  else mkRat (-(a.num * (b.den : Int))) (a.den * b.num.natAbs)

/-- Decimal-literal parser standing in for `pd.to_numeric` on strings:
optional sign, integer part, optional fractional part.  (pandas also
accepts exponent forms; no value exercised by the program's contract uses
them, and any unparsed string coerces to NaN exactly as in
`errors="coerce"`.) -/
def parseRat (s : String) : Option Rat :=
  let cs := (strTrim s).data
  let sgn : Bool × List Char :=
    match cs with
    | '-' :: rest => (true, rest)
    | '+' :: rest => (false, rest)
    | _ => (false, cs)
  let ip := sgn.2.takeWhile Char.isDigit
  let l2 := sgn.2.dropWhile Char.isDigit
  let core : Option Rat :=
    match l2 with
    | [] => if ip.isEmpty then none else some (mkRat (digitsVal ip) 1)
    | '.' :: l3 =>
      let fp := l3.takeWhile Char.isDigit
      let l4 := l3.dropWhile Char.isDigit
      if l4.isEmpty && !(ip.isEmpty && fp.isEmpty) then
        some (mkRat (digitsVal ip * 10 ^ fp.length + digitsVal fp) (10 ^ fp.length))
      else none
    | _ => none
  core.map (fun q => if sgn.1 then -q else q)

/-- `pd.to_numeric(x, errors="coerce")` on a cell: numbers and infinities
pass through, booleans become 0/1, strings parse or coerce to NaN. -/
def toNumeric : Cell → Cell
  | Cell.num q => Cell.num q
  | Cell.pinf => Cell.pinf
  | Cell.ninf => Cell.ninf
  | Cell.nan => Cell.nan
  | Cell.bool b => Cell.num (if b then 1 else 0)
  | Cell.str s =>
    match parseRat s with
    | some q => Cell.num q
    | none => Cell.nan

/-- Numeric `≤` on non-NaN numeric cells (used by the row-wise max). -/
def numLe : Cell → Cell → Bool
  | Cell.ninf, _ => true
  | _, Cell.pinf => true
  | Cell.num a, Cell.num b => decide (a ≤ b)
  | _, _ => false

/-- Cells drawn from a float column (outputs of `toNumeric`): everything
except strings and booleans. -/
def isNumCell : Cell → Bool
  | Cell.str _ => false
  | Cell.bool _ => false
  | _ => true

/-- One step of the skipna row-wise maximum fold. -/
def maxStep (acc c : Cell) : Cell :=
  match c with
  | Cell.nan => acc
  | c =>
    match acc with
    | Cell.nan => c
    | acc => if numLe acc c then c else acc

/-- `df[cands].max(axis=1, skipna=True)` for one row: maximum over the
non-NaN cells, NaN when every cell is NaN. -/
def maxSkipNa (l : List Cell) : Cell := l.foldl maxStep Cell.nan

/-- Pandas float division (used for `zim_AC / zim_AN`): NaN propagates,
finite/0 gives a signed infinity (NaN for 0/0), finite/±inf gives 0.
Strings and booleans never reach this function (operands are outputs of
`toNumeric`); they map to NaN. -/
def pdiv : Cell → Cell → Cell
  | Cell.nan, _ => Cell.nan
  | _, Cell.nan => Cell.nan
  | Cell.num a, Cell.num b =>
    if b = 0 then (if 0 < a then Cell.pinf else if a < 0 then Cell.ninf else Cell.nan)
    else Cell.num (ratDiv a b)
  | Cell.num _, Cell.pinf => Cell.num 0
  | Cell.num _, Cell.ninf => Cell.num 0
  | Cell.pinf, Cell.num b => if b < 0 then Cell.ninf else Cell.pinf
  | Cell.ninf, Cell.num b => if b < 0 then Cell.pinf else Cell.ninf
  | _, _ => Cell.nan

/-- `series <= t` for a float series against a scalar: NaN and +inf
compare false, -inf true.  (A string cell would raise in pandas; it never
occurs where this is applied.) -/
def cellLe (c : Cell) (t : Rat) : Bool :=
  match c with
  | Cell.num a => decide (a ≤ t)
  | Cell.ninf => true
  | _ => false

/-- `series > t`: NaN compares false, +inf true. -/
def cellGt (c : Cell) (t : Rat) : Bool :=
  match c with
  | Cell.num a => decide (t < a)
  | Cell.pinf => true
  | _ => false

/-- `series.isna()` on a cell. -/
def cellIsNa : Cell → Bool
  | Cell.nan => true
  | _ => false

/-- `series.isin(terms)` on a cell: only a string cell can match
(NaN is never in the set). -/
def cellIsin (c : Cell) (terms : List String) : Bool :=
  match c with
  | Cell.str s => terms.contains s
  | _ => false

/-- `series.str.contains(pat, na=False)` on a cell: non-strings give
False. -/
def cellStrContains (c : Cell) (pat : String) : Bool :=
  match c with
  | Cell.str s => strContains s pat
  | _ => false

/-! ## Cohort table loader (`load_zim_db`) -/

/-- The dict comprehension `{c.lower(): c for c in df.columns}`. -/
def lowerMap (cols : List String) : List (String × String) :=
  cols.map (fun c => (strLower c, c))

/-- Python dict lookup on `lowerMap`: later insertions overwrite earlier
ones, so the last matching pair wins. -/
def findLast (m : List (String × String)) (k : String) : Option String :=
  m.foldl (fun acc p => if p.1 = k then some p.2 else acc) none

/-- `str(df.columns.tolist())` as printed inside the loader's diagnostic. -/
def pyList (cols : List String) : String :=
  "[" ++ String.intercalate ", " (cols.map (fun c => "\x27" ++ c ++ "\x27")) ++ "]"

/-- Diagnostic for a missing cohort identity column. -/
def zimMissingMsg (r : String) (cols : List String) : String :=
  "Zimbabwe DB file must contain a \x27" ++ r ++ "\x27 column (case-insensitive). Got: "
    ++ pyList cols

/-- Diagnostic for a cohort table with no usable frequency information. -/
def zimFreqMsg : String :=
  "Zimbabwe DB must have zim_AF or zim_AC + zim_AN (case-insensitive)."

/-- Apply a rename mapping to one column name (`df.rename` semantics:
every column matching a key of the mapping is renamed). -/
def renameStr (m : List (String × String)) (c : String) : String :=
  match m.find? (fun p => p.1 = c) with
  | some p => p.2
  | none => c

/-- `df.rename(columns=m)`: renames column labels and the corresponding
row keys. -/
def renameCols (t : Table) (m : List (String × String)) : Table :=
  { cols := t.cols.map (renameStr m),
    rows := t.rows.map (fun r => r.map (fun p => (renameStr m p.1, p.2))) }

/-- `df[[names]]`: column selection.  Every column whose label matches a
requested name is taken (so duplicate labels are all kept, as in pandas). -/
def selectCols (t : Table) (names : List String) : Table :=
  { cols := (names.map (fun n => t.cols.filter (fun c => c == n))).flatten,
    rows := t.rows.map (fun r =>
      ((names.map (fun n => t.cols.filter (fun c => c == n))).flatten).map
        (fun c => (c, getCell r c))) }

/-- The frequency-column stage of `load_zim_db`: keep or standardise an
existing `zim_AF` column, or derive it as `zim_AC / zim_AN` after numeric
coercion, or fail. -/
def loadZimAf (df : Table) (cols : List (String × String)) : Except String Table :=
  match findLast cols "zim_af" with
  | none =>
    match findLast cols "zim_ac", findLast cols "zim_an" with
    | some cac, some can =>
      let df1 := setColWith df cac (fun r => toNumeric (getCell r cac))
      let df2 := setColWith df1 can (fun r => toNumeric (getCell r can))
      .ok (setColWith df2 "zim_AF" (fun r => pdiv (getCell r cac) (getCell r can)))
    | _, _ => .error zimFreqMsg
  | some caf => .ok (if caf = "zim_AF" then df else renameCols df [(caf, "zim_AF")])

/-- `load_zim_db`: validate the cohort table, derive or standardise the
`zim_AF` frequency column, standardise the identity columns, and project
to the five standard columns.  Fatal validation failures return
`.error` with the program's diagnostic string. -/
def loadZimDb (df : Table) : Except String Table :=
  match findLast (lowerMap df.cols) "chr" with
  | none => .error (zimMissingMsg "chr" df.cols)
  | some cchr =>
  match findLast (lowerMap df.cols) "start" with
  | none => .error (zimMissingMsg "start" df.cols)
  | some cstart =>
  match findLast (lowerMap df.cols) "ref" with
  | none => .error (zimMissingMsg "ref" df.cols)
  | some cref =>
  match findLast (lowerMap df.cols) "alt" with
  | none => .error (zimMissingMsg "alt" df.cols)
  | some calt =>
  match loadZimAf df (lowerMap df.cols) with
  | .error e => .error e
  | .ok dfA =>
    .ok (selectCols (renameCols dfA [(cchr, "Chr"), (cstart, "Start"), (cref, "Ref"), (calt, "Alt")])
      ["Chr", "Start", "Ref", "Alt", "zim_AF"])

/-! ## gnomAD max-column builder (`_make_gnomad_max_col`) -/

/-- Coerce the candidate columns of one row to numeric, in order
(the row-level effect of the `for c in candidates` loop). -/
def coerceRow (cands : List String) (r : Row) : Row :=
  cands.foldl (fun r c => setCell r c (toNumeric (getCell r c))) r

/-- `_make_gnomad_max_col`: for an empty candidate list return no name
and leave the table untouched; otherwise coerce every candidate column to
numeric, add `newName` holding the row-wise skipna maximum of the
candidates, and return the new name. -/
def makeGnomadMaxCol (t : Table) (cands : List String) (newName : String) :
    Option String × Table :=
  if cands.isEmpty then (none, t)
  else
    let t1 := cands.foldl (fun t c => setColWith t c (fun r => toNumeric (getCell r c))) t
    (some newName, setColWith t1 newName (fun r => maxSkipNa (cands.map (getCell r))))

/-! ## Prioritisation pipeline (`prioritise`) -/

/-- Required identity columns of the annotation table. -/
def reqAnnCols : List String := ["Chr", "Start", "End", "Ref", "Alt"]

/-- Global gnomAD AF candidates: columns starting with `AF` whose
lower-cased name does not contain `afr`. -/
def gnomadAllCandidates (cols : List String) : List String :=
  cols.filter (fun c => strStarts c "AF" && !(strContains (strLower c) "afr"))

/-- AFR gnomAD AF candidates: columns whose lower-cased name contains
`afr` and which start with `AF`. -/
def gnomadAfrCandidates (cols : List String) : List String :=
  cols.filter (fun c => strContains (strLower c) "afr" && strStarts c "AF")

/-- The merge keys. -/
def keyCols : List String := ["Chr", "Start", "Ref", "Alt"]

/-- Key tuple of a row. -/
def rowKey (r : Row) : List Cell := keyCols.map (getCell r)

/-- `ann.merge(zim, on=keys, how="left")`: every left row is paired with
each matching right row (matching on the key tuple); an unmatched left
row gets NaN in the right-only columns. -/
def mergeLeft (l r : Table) : Table :=
  let rcols := r.cols.filter (fun c => !(keyCols.contains c))
  { cols := l.cols ++ rcols,
    rows := (l.rows.map (fun a =>
      let ms := r.rows.filter (fun z => decide (rowKey z = rowKey a))
      if ms.isEmpty then [a ++ rcols.map (fun c => (c, Cell.nan))]
      else ms.map (fun z => a ++ rcols.map (fun c => (c, getCell z c))))).flatten }

/-- `df[name] = df[name].fillna(v)`: replaces NaN only (an infinity is
kept). -/
def fillnaCol (t : Table) (name : String) (v : Cell) : Table :=
  setColWith t name (fun r =>
    match getCell r name with
    | Cell.nan => v
    | x => x)

/-- Functional-region consequence column. -/
def funcCol : String := "Func.refGene"

/-- Exonic consequence column. -/
def exonicFuncCol : String := "ExonicFunc.refGene"

/-- Loss-of-function exonic terms. -/
def lofTerms : List String :=
  ["frameshift_deletion", "frameshift_insertion", "frameshift_variant",
   "stopgain", "stoploss", "splicing", "splice_site"]

/-- Missense exonic terms. -/
def missenseTerms : List String := ["nonsynonymous SNV", "missense_variant"]

/-- Synonymous exonic terms. -/
def synonymousTerms : List String := ["synonymous SNV", "synonymous_variant"]

/-- `cond_lof`: exonic consequence in the LoF set, or functional region
containing the substring `splicing`. -/
def condLof (r : Row) : Bool :=
  cellIsin (getCell r exonicFuncCol) lofTerms || cellStrContains (getCell r funcCol) "splicing"

/-- `cond_missense`. -/
def condMissense (r : Row) : Bool :=
  cellIsin (getCell r exonicFuncCol) missenseTerms

/-- `cond_synonymous`. -/
def condSynonymous (r : Row) : Bool :=
  cellIsin (getCell r exonicFuncCol) synonymousTerms

/-- The impact-tier of one row: the sequence of mask assignments
`other` → synonymous → missense → LoF, later assignments overriding
earlier ones. -/
def impactTier (r : Row) : String :=
  let t0 := "other"
  let t1 := if condSynonymous r then "synonymous" else t0
  let t2 := if condMissense r then "missense" else t1
  if condLof r then "LoF" else t2

/-- The warning printed when a consequence column is absent. -/
def impactWarning : String :=
  "WARNING: Func.refGene / ExonicFunc.refGene not found; skipping consequence-based filters."

/-- Impact classification stage: if either consequence column is missing,
warn and mark every row `unknown`; otherwise assign `impactTier`
row-wise.  Returns the table plus the warnings emitted. -/
def assignImpact (merged : Table) : Table × List String :=
  if !(merged.cols.contains funcCol) || !(merged.cols.contains exonicFuncCol) then
    (setColWith merged "impact_tier" (fun _ => Cell.str "unknown"), [impactWarning])
  else
    (setColWith merged "impact_tier" (fun r => Cell.str (impactTier r)), [])

/-- The frequency mask: for each max-column that was created, the value is
NaN or at most the corresponding threshold; an absent max-column imposes
no condition. -/
def freqMaskB (gAll gAfr : Option String) (t1 t2 : Rat) (r : Row) : Bool :=
  (match gAll with
   | none => true
   | some n => cellIsNa (getCell r n) || cellLe (getCell r n) t1) &&
  (match gAfr with
   | none => true
   | some n => cellIsNa (getCell r n) || cellLe (getCell r n) t2)

/-- The final keep mask: frequency, cohort and impact predicates. -/
def keepMask (gAll gAfr : Option String) (t1 t2 t3 : Rat) (r : Row) : Bool :=
  freqMaskB gAll gAfr t1 t2 r
    && cellLe (getCell r "zim_AF") t3
    && cellIsin (getCell r "impact_tier") ["LoF", "missense"]

/-- The per-row effect of the debug-flag assignments on the filtered
subset (index alignment in pandas makes each flag a function of the row's
own values); thresholds are the fixed literal 0.01. -/
def addFlags (gAll gAfr : Option String) (r : Row) : Row :=
  let r1 := setCell r "flag_high_zim_af" (Cell.bool (cellGt (getCell r "zim_AF") (mkRat 1 100)))
  let r2 :=
    match gAll with
    | none => r1
    | some n => setCell r1 "flag_common_gnomad" (Cell.bool (cellGt (getCell r1 n) (mkRat 1 100)))
  match gAfr with
  | none => r2
  | some n => setCell r2 "flag_common_gnomad_afr" (Cell.bool (cellGt (getCell r2 n) (mkRat 1 100)))

/-- Debug-flag assignments at table level. -/
def addFlagsTable (gAll gAfr : Option String) (t : Table) : Table :=
  let u1 := setColWith t "flag_high_zim_af"
    (fun r => Cell.bool (cellGt (getCell r "zim_AF") (mkRat 1 100)))
  let u2 :=
    match gAll with
    | none => u1
    | some n => setColWith u1 "flag_common_gnomad"
        (fun r => Cell.bool (cellGt (getCell r n) (mkRat 1 100)))
  match gAfr with
  | none => u2
  | some n => setColWith u2 "flag_common_gnomad_afr"
      (fun r => Cell.bool (cellGt (getCell r n) (mkRat 1 100)))

/-- Result of a successful run: the merged/annotated table (written to
`<prefix>.zim_annotated.tsv`), the prioritised table with debug flags
(written to `<prefix>.zim_prioritised.tsv`), and the warnings printed. -/
structure POut where
  annotated : Table
  prioritised : Table
  warnings : List String
deriving DecidableEq, Repr

/-- The annotation table after both max-column constructions. -/
def annMaxed (ann : Table) : Table :=
  (makeGnomadMaxCol (makeGnomadMaxCol ann (gnomadAllCandidates ann.cols) "gnomad_AF_max").2
    (gnomadAfrCandidates ann.cols) "gnomad_AFR_AF_max").2

/-- Name returned by the global max-column construction (`gnomad_all`). -/
def gAllOf (ann : Table) : Option String :=
  (makeGnomadMaxCol ann (gnomadAllCandidates ann.cols) "gnomad_AF_max").1

/-- Name returned by the AFR max-column construction (`gnomad_afr`). -/
def gAfrOf (ann : Table) : Option String :=
  (makeGnomadMaxCol (makeGnomadMaxCol ann (gnomadAllCandidates ann.cols) "gnomad_AF_max").2
    (gnomadAfrCandidates ann.cols) "gnomad_AFR_AF_max").1

/-- The merged table after the left join and the `zim_AF` fillna, before
impact classification. -/
def preImpact (ann zimT : Table) : Table :=
  fillnaCol (mergeLeft (annMaxed ann) zimT) "zim_AF" (Cell.num 0)

/-- The body of `prioritise` after both inputs loaded successfully:
max-column construction, left join, cohort-frequency fill, impact
classification, the three filter predicates, and the debug flags. -/
def pipelineCore (ann zimT : Table) (t1 t2 t3 : Rat) : POut :=
  let ai := assignImpact (preImpact ann zimT)
  let filtered : Table :=
    { cols := ai.1.cols,
      rows := ai.1.rows.filter (keepMask (gAllOf ann) (gAfrOf ann) t1 t2 t3) }
  { annotated := ai.1,
    prioritised := addFlagsTable (gAllOf ann) (gAfrOf ann) filtered,
    warnings := ai.2 }

/-- `prioritise`: check the annotation table's required identity columns
(first missing one is fatal, with the program's message), load the cohort
table, then run the core pipeline. -/
def prioritise (ann zim : Table) (t1 t2 t3 : Rat) : Except String POut :=
  match reqAnnCols.find? (fun c => !(ann.cols.contains c)) with
  | some c => .error ("Missing required column \x27" ++ c ++ "\x27 in multianno file.")
  | none =>
    match loadZimDb zim with
    | .error e => .error e
    | .ok zimT => .ok (pipelineCore ann zimT t1 t2 t3)

/-! ## Output serialisation (for the determinism property) -/

/-- Render one cell as `to_csv` does: NaN as the empty field, booleans as
`True`/`False`. -/
def cellToCsv : Cell → String
  | Cell.str s => s
  | Cell.num q => toString q
  | Cell.pinf => "inf"
  | Cell.ninf => "-inf"
  | Cell.nan => ""
  | Cell.bool b => if b then "True" else "False"

/-- `df.to_csv(sep="\t", index=False)`: header line then one line per
row. -/
def toCsv (t : Table) : String :=
  String.intercalate "\t" t.cols ++ "\n"
    ++ String.join (t.rows.map (fun r =>
        String.intercalate "\t" (t.cols.map (fun c => cellToCsv (getCell r c))) ++ "\n"))

/-- A complete run: the byte contents of the two output files, or the
fatal diagnostic. -/
def runPipeline (ann zim : Table) (t1 t2 t3 : Rat) : Except String (String × String) :=
  (prioritise ann zim t1 t2 t3).map (fun o => (toCsv o.annotated, toCsv o.prioritised))

/-! ## Spec-side predicate and concrete instances -/

/-- Transcription of the keep-predicate as the specification words it
(for the filter-conjunction property): each max-column that was created
(candidate list non-empty) is missing or at most its threshold, the
cohort frequency is at most the cohort threshold, and the impact tier is
`LoF` or `missense`. -/
def specKeepPred (annCols : List String) (t1 t2 t3 : Rat) (r : Row) : Bool :=
  (if gnomadAllCandidates annCols = [] then true
   else cellIsNa (getCell r "gnomad_AF_max") || cellLe (getCell r "gnomad_AF_max") t1) &&
  ((if gnomadAfrCandidates annCols = [] then true
    else cellIsNa (getCell r "gnomad_AFR_AF_max") || cellLe (getCell r "gnomad_AFR_AF_max") t2) &&
   (cellLe (getCell r "zim_AF") t3 &&
    (decide (getCell r "impact_tier" = Cell.str "LoF")
      || decide (getCell r "impact_tier" = Cell.str "missense"))))

/-- Concrete annotation table (spec's end-to-end scenario). -/
def annW : Table :=
  { cols := ["Chr", "Start", "End", "Ref", "Alt", "Func.refGene", "ExonicFunc.refGene",
             "AF", "AF_afr"],
    rows := [[("Chr", Cell.num 1), ("Start", Cell.num 100), ("End", Cell.num 100),
              ("Ref", Cell.str "A"), ("Alt", Cell.str "T"),
              ("Func.refGene", Cell.str "exonic"), ("ExonicFunc.refGene", Cell.str "stopgain"),
              ("AF", Cell.num (mkRat 1 1000)), ("AF_afr", Cell.num (mkRat 1 2000))]] }

/-- Concrete empty cohort table. -/
def zimW : Table := { cols := ["chr", "start", "ref", "alt", "zim_AF"], rows := [] }

/-- The empty run result (used as a `getD` default only). -/
def emptyPOut : POut :=
  { annotated := { cols := [], rows := [] },
    prioritised := { cols := [], rows := [] }, warnings := [] }

/-- The concrete run on `annW`/`zimW` with the default thresholds. -/
def outW : POut :=
  (prioritise annW zimW (mkRat 1 100) (mkRat 1 100) (mkRat 1 20)).toOption.getD emptyPOut

/-- The loaded form of `zimW`. -/
def zimTW : Table := (loadZimDb zimW).toOption.getD { cols := [], rows := [] }

/-- The single merged row of the concrete run. -/
def rW : Row := outW.annotated.rows.getD 0 []

/-- A bare annotation table without consequence or frequency columns. -/
def annPlain : Table :=
  { cols := ["Chr", "Start", "End", "Ref", "Alt"],
    rows := [[("Chr", Cell.num 1), ("Start", Cell.num 100), ("End", Cell.num 100),
              ("Ref", Cell.str "A"), ("Alt", Cell.str "T")]] }

/-- An annotation table missing the `Chr` identity column. -/
def annC6 : Table := { cols := ["Zzz", "Start", "End", "Ref", "Alt"], rows := [] }

/-- A cohort table with duplicate case-variants `Chr`/`chr` of the
chromosome column. -/
def zimC7dup : Table :=
  { cols := ["Chr", "chr", "Start", "Ref", "Alt", "zim_AF"], rows := [] }

/-- A cohort table in count/number form with mixed-case identity
columns. -/
def zimC7w : Table :=
  { cols := ["CHR", "start", "Ref", "alt", "zim_AC", "zim_AN"],
    rows := [[("CHR", Cell.num 1), ("start", Cell.num 100), ("Ref", Cell.str "A"),
              ("alt", Cell.str "T"), ("zim_AC", Cell.num 1), ("zim_AN", Cell.num 10)]] }

/-- A cohort table whose matching record has a positive count and a zero
number, so the derived frequency is `+inf`. -/
def zimC10 : Table :=
  { cols := ["Chr", "Start", "Ref", "Alt", "zim_AC", "zim_AN"],
    rows := [[("Chr", Cell.num 1), ("Start", Cell.num 100), ("Ref", Cell.str "A"),
              ("Alt", Cell.str "T"), ("zim_AC", Cell.num 3), ("zim_AN", Cell.num 0)]] }

/-- A cohort table whose matching record has a non-numeric count, so the
derived frequency is NaN. -/
def zimC10w : Table :=
  { cols := ["Chr", "Start", "Ref", "Alt", "zim_AC", "zim_AN"],
    rows := [[("Chr", Cell.num 1), ("Start", Cell.num 100), ("Ref", Cell.str "A"),
              ("Alt", Cell.str "T"), ("zim_AC", Cell.str "NA"), ("zim_AN", Cell.num 10)]] }

/-- The loaded form of `zimC10w`. -/
def zimTC10 : Table := (loadZimDb zimC10w).toOption.getD { cols := [], rows := [] }

/-- The concrete run on `annPlain`/`zimC10w`. -/
def outC10 : POut :=
  (prioritise annPlain zimC10w (mkRat 1 100) (mkRat 1 100) (mkRat 1 20)).toOption.getD emptyPOut

/-- The single merged row of the `outC10` run. -/
def rC10 : Row := outC10.annotated.rows.getD 0 []

/-- A small table for exercising the max-column builder: one row with
values [0.001, missing, 0.02], one row with no numeric candidate. -/
def tC3 : Table :=
  { cols := ["a", "b", "c"],
    rows := [[("a", Cell.num (mkRat 1 1000)), ("b", Cell.nan), ("c", Cell.num (mkRat 1 50))],
             [("a", Cell.str "xx"), ("b", Cell.nan), ("c", Cell.nan)]] }

/-- The loaded form of `zimC7w`. -/
def tC7 : Table := (loadZimDb zimC7w).toOption.getD { cols := [], rows := [] }

/-! ## Row-level lemmas -/

theorem ratDiv_eq_div (a b : Rat) : ratDiv a b = a / b := by
  unfold ratDiv
  by_cases hb : b = 0
  · subst hb
    simp [Rat.mkRat_eq_div]
  · have hbnum : b.num ≠ 0 := Rat.num_ne_zero.mpr hb
    have had : ((a.den : Rat)) ≠ 0 := by
      exact_mod_cast a.den_nz
    have hbd : ((b.den : Rat)) ≠ 0 := by
      exact_mod_cast b.den_nz
    have hbn : ((b.num : Rat)) ≠ 0 := by
      exact_mod_cast hbnum
    rcases le_or_lt 0 b.num with hle | hlt
    · rw [if_pos hle, Rat.mkRat_eq_div]
      have h2 : ((b.num.natAbs : Nat) : Rat) = (b.num : Rat) := by
        rw [Int.cast_natAbs]
        exact_mod_cast abs_of_nonneg hle
      push_cast
      rw [h2]
      conv_rhs => rw [← Rat.num_div_den a, ← Rat.num_div_den b]
      field_simp
      try ring
    · rw [if_neg (not_le.mpr hlt), Rat.mkRat_eq_div]
      have h2 : ((b.num.natAbs : Nat) : Rat) = -(b.num : Rat) := by
        rw [Int.cast_natAbs]
        exact_mod_cast abs_of_nonpos (le_of_lt hlt)
      push_cast
      rw [h2]
      conv_rhs => rw [← Rat.num_div_den a, ← Rat.num_div_den b]
      field_simp
      try ring

theorem getCell_setCell_same (r : Row) (k : String) (v : Cell) :
    getCell (setCell r k v) k = v := by
  induction r with
  | nil => simp [setCell, getCell]
  | cons p rest ih =>
    obtain ⟨a, b⟩ := p
    by_cases h : a = k
    · simp [setCell, h, getCell]
    · simp [setCell, h, getCell, ih]

theorem getCell_setCell_ne (r : Row) (k c : String) (v : Cell) (h : k ≠ c) :
    getCell (setCell r k v) c = getCell r c := by
  induction r with
  | nil => simp [setCell, getCell, h]
  | cons p rest ih =>
    obtain ⟨a, b⟩ := p
    by_cases ha : a = k
    · simp [setCell, ha, getCell, h]
    · simp only [setCell, if_neg ha, getCell]
      by_cases hc : a = c
      · simp [hc]
      · simp [hc, ih]

theorem getCell_of_lacks (r : Row) (k : String) (h : ∀ p ∈ r, p.1 ≠ k) :
    getCell r k = Cell.nan := by
  induction r with
  | nil => rfl
  | cons p rest ih =>
    obtain ⟨a, b⟩ := p
    have ha : a ≠ k := h (a, b) (List.mem_cons_self _ _)
    simp only [getCell, if_neg ha]
    exact ih (fun q hq => h q (List.mem_cons_of_mem _ hq))

theorem getCell_append_right (r s : Row) (k : String) (h : ∀ p ∈ s, p.1 ≠ k) :
    getCell (r ++ s) k = getCell r k := by
  induction r with
  | nil => simpa [getCell] using getCell_of_lacks s k h
  | cons p rest ih =>
    obtain ⟨a, b⟩ := p
    by_cases ha : a = k
    · simp [getCell, ha]
    · simp [getCell, ha, ih]

theorem getCell_append_left (r s : Row) (k : String) (h : ∀ p ∈ r, p.1 ≠ k) :
    getCell (r ++ s) k = getCell s k := by
  induction r with
  | nil => simp
  | cons p rest ih =>
    obtain ⟨a, b⟩ := p
    have ha : a ≠ k := h (a, b) (List.mem_cons_self _ _)
    simp only [List.cons_append, getCell, if_neg ha]
    exact ih (fun q hq => h q (List.mem_cons_of_mem _ hq))

theorem setCell_lacks (r : Row) (k c : String) (v : Cell)
    (hr : ∀ p ∈ r, p.1 ≠ c) (hk : k ≠ c) : ∀ p ∈ setCell r k v, p.1 ≠ c := by
  induction r with
  | nil => simpa [setCell] using hk
  | cons p rest ih =>
    obtain ⟨a, b⟩ := p
    by_cases ha : a = k
    · intro q hq
      simp only [setCell, if_pos ha] at hq
      rcases List.mem_cons.mp hq with h | h
      · simp [h, hk]
      · exact hr q (List.mem_cons_of_mem _ h)
    · intro q hq
      simp only [setCell, if_neg ha] at hq
      rcases List.mem_cons.mp hq with h | h
      · exact h ▸ hr (a, b) (List.mem_cons_self _ _)
      · exact ih (fun q hq => hr q (List.mem_cons_of_mem _ hq)) q h

theorem getCell_map_pairs (cols : List String) (g : String → Cell) (k : String) :
    getCell (cols.map (fun c => (c, g c))) k
      = if cols.contains k then g k else Cell.nan := by
  induction cols with
  | nil => simp [getCell]
  | cons c rest ih =>
    by_cases h : c = k
    · simp [getCell, h]
    · simp [getCell, h, ih, Ne.symm h]

theorem rowKey_setCell (r : Row) (k : String) (v : Cell)
    (h1 : k ≠ "Chr") (h2 : k ≠ "Start") (h3 : k ≠ "Ref") (h4 : k ≠ "Alt") :
    rowKey (setCell r k v) = rowKey r := by
  simp only [rowKey, keyCols, List.map]
  rw [getCell_setCell_ne _ _ _ _ h1,
    getCell_setCell_ne _ _ _ _ h2,
    getCell_setCell_ne _ _ _ _ h3,
    getCell_setCell_ne _ _ _ _ h4]

theorem get_map_of_eq {α β : Type} (l : List α) (l2 : List β) (f : α → β)
    (h : l2 = l.map f) (i : Nat) (hi : i < l.length) (hi2 : i < l2.length) :
    l2.get ⟨i, hi2⟩ = f (l.get ⟨i, hi⟩) := by
  subst h
  simp

/-! ## Numeric coercion and row-wise maximum -/

theorem toNumeric_idem (c : Cell) : toNumeric (toNumeric c) = toNumeric c := by
  cases c <;> simp [toNumeric]
  case str s => cases parseRat s <;> simp [toNumeric]

theorem getCell_coerceRow_not_mem (cands : List String) (r : Row) (c : String)
    (h : ¬ c ∈ cands) : getCell (coerceRow cands r) c = getCell r c := by
  induction cands generalizing r with
  | nil => rfl
  | cons d rest ih =>
    have hd : d ≠ c := fun hh => h (hh ▸ List.mem_cons_self _ _)
    have hr : ¬ c ∈ rest := fun hh => h (List.mem_cons_of_mem _ hh)
    simp only [coerceRow, List.foldl_cons]
    rw [show (List.foldl (fun r c => setCell r c (toNumeric (getCell r c))) _ rest)
        = coerceRow rest (setCell r d (toNumeric (getCell r d))) from rfl,
      ih _ hr, getCell_setCell_ne _ _ _ _ hd]

theorem getCell_coerceRow_mem (cands : List String) (r : Row) (c : String)
    (h : c ∈ cands) : getCell (coerceRow cands r) c = toNumeric (getCell r c) := by
  induction cands generalizing r with
  | nil => exact absurd h (List.not_mem_nil c)
  | cons d rest ih =>
    simp only [coerceRow, List.foldl_cons]
    rw [show (List.foldl (fun r c => setCell r c (toNumeric (getCell r c))) _ rest)
        = coerceRow rest (setCell r d (toNumeric (getCell r d))) from rfl]
    by_cases hcr : c ∈ rest
    · rw [ih _ hcr]
      by_cases hdc : d = c
      · rw [hdc, getCell_setCell_same, toNumeric_idem]
      · rw [getCell_setCell_ne _ _ _ _ hdc]
    · have hdc : d = c := by
        rcases List.mem_cons.mp h with hh | hh
        · exact hh.symm
        · exact absurd hh hcr
      rw [getCell_coerceRow_not_mem _ _ _ hcr, hdc, getCell_setCell_same]

theorem coerceRow_lacks (cands : List String) (r : Row) (k : String)
    (hc : ∀ c ∈ cands, c ≠ k) (hr : ∀ p ∈ r, p.1 ≠ k) :
    ∀ p ∈ coerceRow cands r, p.1 ≠ k := by
  induction cands generalizing r with
  | nil => exact hr
  | cons d rest ih =>
    simp only [coerceRow, List.foldl_cons]
    exact ih _ (fun c hcc => hc c (List.mem_cons_of_mem _ hcc))
      (setCell_lacks _ _ _ _ hr (hc d (List.mem_cons_self _ _)))

theorem setColWith_rows (t : Table) (n : String) (f : Row → Cell) :
    (setColWith t n f).rows = t.rows.map (fun r => setCell r n (f r)) := rfl

theorem coerceFold_rows (cands : List String) (t : Table) :
    (cands.foldl (fun t c => setColWith t c (fun r => toNumeric (getCell r c))) t).rows
      = t.rows.map (coerceRow cands) := by
  induction cands generalizing t with
  | nil =>
    have h : coerceRow ([] : List String) = fun r => r := by
      funext r
      rfl
    rw [List.foldl_nil, h, List.map_id']
  | cons d rest ih =>
    simp only [List.foldl_cons]
    rw [ih, setColWith_rows, List.map_map]
    rfl

theorem coerceFold_cols_mem (cands : List String) (t : Table) (c : String) :
    c ∈ (cands.foldl (fun t c => setColWith t c (fun r => toNumeric (getCell r c))) t).cols
      ↔ c ∈ t.cols ∨ c ∈ cands := by
  induction cands generalizing t with
  | nil => simp
  | cons d rest ih =>
    simp only [List.foldl_cons]
    rw [ih]
    simp only [setColWith]
    by_cases hd : t.cols.contains d
    · simp only [if_pos hd, List.mem_cons]
      constructor
      · rintro (h | h)
        · exact Or.inl h
        · exact Or.inr (Or.inr h)
      · rintro (h | h | h)
        · exact Or.inl h
        · exact Or.inl (h ▸ List.mem_of_elem_eq_true hd)
        · exact Or.inr h
    · simp only [if_neg hd, List.mem_append, List.mem_singleton, List.mem_cons]
      tauto

theorem mem_setColWith_cols (t : Table) (n : String) (f : Row → Cell) (c : String) :
    c ∈ (setColWith t n f).cols ↔ c ∈ t.cols ∨ c = n := by
  simp only [setColWith]
  by_cases h : t.cols.contains n
  · simp only [if_pos h]
    constructor
    · exact Or.inl
    · rintro (hh | hh)
      · exact hh
      · exact hh ▸ List.mem_of_elem_eq_true h
  · have h2 : ¬ n ∈ t.cols := fun hm => h (List.elem_eq_true_of_mem hm)
    simp [if_neg h, h2]

theorem makeGnomadMaxCol_fst (t : Table) (cands : List String) (n : String) :
    (makeGnomadMaxCol t cands n).1 = if cands.isEmpty then none else some n := by
  unfold makeGnomadMaxCol
  split <;> rfl

theorem makeGnomadMaxCol_rows (t : Table) (cands : List String) (n : String)
    (h : ¬ cands.isEmpty) :
    (makeGnomadMaxCol t cands n).2.rows
      = t.rows.map (fun r =>
          setCell (coerceRow cands r) n
            (maxSkipNa (cands.map (fun c => getCell (coerceRow cands r) c)))) := by
  unfold makeGnomadMaxCol
  rw [if_neg h]
  rw [show (some n,
      setColWith (cands.foldl (fun t c => setColWith t c (fun r => toNumeric (getCell r c))) t)
        n (fun r => maxSkipNa (cands.map (getCell r)))).2
    = setColWith (cands.foldl (fun t c => setColWith t c (fun r => toNumeric (getCell r c))) t)
        n (fun r => maxSkipNa (cands.map (getCell r))) from rfl]
  rw [setColWith_rows, coerceFold_rows, List.map_map]
  rfl

theorem makeGnomadMaxCol_cols_mem (t : Table) (cands : List String) (n : String) (c : String) :
    c ∈ (makeGnomadMaxCol t cands n).2.cols ↔
      (c ∈ t.cols ∨ (¬ cands.isEmpty ∧ (c ∈ cands ∨ c = n))) := by
  unfold makeGnomadMaxCol
  by_cases h : cands.isEmpty
  · simp [if_pos h, h]
  · rw [if_neg h]
    simp only [mem_setColWith_cols, coerceFold_cols_mem, h]
    tauto

theorem makeGnomadMaxCol_rows_length (t : Table) (cands : List String) (n : String) :
    (makeGnomadMaxCol t cands n).2.rows.length = t.rows.length := by
  by_cases h : cands.isEmpty
  · unfold makeGnomadMaxCol
    rw [if_pos h]
  · rw [makeGnomadMaxCol_rows _ _ _ h, List.length_map]

theorem makeGnomadMaxCol_lacks (t : Table) (cands : List String) (n : String) (k : String)
    (hn : n ≠ k) (hc : ∀ c ∈ cands, c ≠ k)
    (ht : ∀ r ∈ t.rows, ∀ p ∈ r, p.1 ≠ k) :
    ∀ r ∈ (makeGnomadMaxCol t cands n).2.rows, ∀ p ∈ r, p.1 ≠ k := by
  by_cases h : cands.isEmpty
  · unfold makeGnomadMaxCol
    rw [if_pos h]
    exact ht
  · rw [makeGnomadMaxCol_rows _ _ _ h]
    intro r hr
    obtain ⟨r0, hr0, hrEq⟩ := List.mem_map.mp hr
    exact hrEq ▸ setCell_lacks _ _ _ _ (coerceRow_lacks _ _ _ hc (ht r0 hr0)) hn

/-! ## Properties of the skipna maximum -/

theorem isNumCell_toNumeric (c : Cell) : isNumCell (toNumeric c) = true := by
  cases c <;> simp [toNumeric, isNumCell]
  case str s => cases parseRat s <;> simp [isNumCell]

theorem numLe_refl (c : Cell) (hc : isNumCell c = true) (hn : c ≠ Cell.nan) :
    numLe c c = true := by
  cases c <;> simp_all [numLe, isNumCell]

theorem numLe_total (a b : Cell) (ha : isNumCell a = true) (hb : isNumCell b = true)
    (hna : a ≠ Cell.nan) (hnb : b ≠ Cell.nan) :
    numLe a b = true ∨ numLe b a = true := by
  cases a <;> cases b <;> simp_all [numLe, isNumCell]
  exact le_total _ _

theorem numLe_trans (a b c : Cell) (ha : isNumCell a = true) (hb : isNumCell b = true)
    (hc : isNumCell c = true) (hna : a ≠ Cell.nan) (hnb : b ≠ Cell.nan) (hnc : c ≠ Cell.nan)
    (hab : numLe a b = true) (hbc : numLe b c = true) : numLe a c = true := by
  cases a <;> cases b <;> cases c <;> simp_all [numLe, isNumCell]
  exact le_trans hab hbc

theorem maxStep_nan_right (acc : Cell) : maxStep acc Cell.nan = acc := rfl

theorem maxStep_nan_left (c : Cell) (hc : c ≠ Cell.nan) : maxStep Cell.nan c = c := by
  cases c <;> first | exact absurd rfl hc | rfl

theorem maxStep_spec (acc c : Cell) (hacc : acc ≠ Cell.nan) (hc : c ≠ Cell.nan) :
    maxStep acc c = if numLe acc c then c else acc := by
  cases c <;> cases acc <;> first | exact absurd rfl hc | exact absurd rfl hacc | rfl

theorem maxStep_eq_or (acc c : Cell) : maxStep acc c = acc ∨ maxStep acc c = c := by
  by_cases hc : c = Cell.nan
  · exact Or.inl (hc ▸ maxStep_nan_right acc)
  · by_cases hacc : acc = Cell.nan
    · exact Or.inr (hacc ▸ maxStep_nan_left c hc)
    · rw [maxStep_spec acc c hacc hc]
      by_cases h : numLe acc c = true
      · rw [if_pos h]
        exact Or.inr rfl
      · rw [if_neg h]
        exact Or.inl rfl

theorem maxStep_ne_nan (acc c : Cell) (h : acc ≠ Cell.nan ∨ c ≠ Cell.nan) :
    maxStep acc c ≠ Cell.nan := by
  by_cases hc : c = Cell.nan
  · subst hc
    rw [maxStep_nan_right]
    rcases h with h | h
    · exact h
    · exact absurd rfl h
  · by_cases hacc : acc = Cell.nan
    · subst hacc
      rw [maxStep_nan_left c hc]
      exact hc
    · rw [maxStep_spec acc c hacc hc]
      by_cases hif : numLe acc c = true
      · rw [if_pos hif]
        exact hc
      · rw [if_neg hif]
        exact hacc

theorem numLe_nan_right (x : Cell) (h : numLe x Cell.nan = true) : x = Cell.ninf := by
  cases x <;> simp_all [numLe]

theorem numLe_maxStep_right (acc c : Cell) (hacc : isNumCell acc = true)
    (hc : isNumCell c = true) (hcn : c ≠ Cell.nan) :
    numLe c (maxStep acc c) = true := by
  by_cases haccn : acc = Cell.nan
  · subst haccn
    rw [maxStep_nan_left c hcn]
    exact numLe_refl c hc hcn
  · rw [maxStep_spec acc c haccn hcn]
    by_cases hif : numLe acc c = true
    · rw [if_pos hif]
      exact numLe_refl c hc hcn
    · rw [if_neg hif]
      rcases numLe_total acc c hacc hc haccn hcn with h | h
      · exact absurd h hif
      · exact h

theorem numLe_maxStep_left (acc c x : Cell) (hacc : isNumCell acc = true)
    (hc : isNumCell c = true) (hx : isNumCell x = true) (hxn : x ≠ Cell.nan)
    (h : numLe x acc = true) :
    numLe x (maxStep acc c) = true := by
  by_cases hcn : c = Cell.nan
  · subst hcn
    rw [maxStep_nan_right]
    exact h
  · by_cases haccn : acc = Cell.nan
    · subst haccn
      rw [maxStep_nan_left c hcn, numLe_nan_right x h]
      simp [numLe]
    · rw [maxStep_spec acc c haccn hcn]
      by_cases hif : numLe acc c = true
      · rw [if_pos hif]
        exact numLe_trans x acc c hx hacc hc hxn haccn hcn h hif
      · rw [if_neg hif]
        exact h

theorem maxStep_isNum (acc c : Cell) (ha : isNumCell acc = true) (hc : isNumCell c = true) :
    isNumCell (maxStep acc c) = true := by
  rcases maxStep_eq_or acc c with h | h <;> rw [h] <;> assumption

theorem foldl_maxStep_mem (l : List Cell) (acc : Cell) :
    l.foldl maxStep acc ∈ acc :: l := by
  induction l generalizing acc with
  | nil => simp
  | cons c rest ih =>
    rw [List.foldl_cons]
    rcases List.mem_cons.mp (ih (maxStep acc c)) with h | h
    · rw [h]
      rcases maxStep_eq_or acc c with hh | hh <;> rw [hh] <;> simp
    · exact List.mem_cons_of_mem _ (List.mem_cons_of_mem _ h)

theorem foldl_maxStep_all_nan (l : List Cell) (acc : Cell)
    (h : ∀ c ∈ l, c = Cell.nan) : l.foldl maxStep acc = acc := by
  induction l generalizing acc with
  | nil => rfl
  | cons c rest ih =>
    rw [List.foldl_cons, h c (List.mem_cons_self _ _), maxStep_nan_right]
    exact ih _ (fun d hd => h d (List.mem_cons_of_mem _ hd))

theorem foldl_maxStep_ne_nan_of_acc (l : List Cell) (acc : Cell) (h : acc ≠ Cell.nan) :
    l.foldl maxStep acc ≠ Cell.nan := by
  induction l generalizing acc with
  | nil => exact h
  | cons c rest ih =>
    rw [List.foldl_cons]
    exact ih _ (maxStep_ne_nan _ _ (Or.inl h))

theorem foldl_maxStep_ne_nan (l : List Cell) (acc : Cell)
    (h : ∃ c ∈ l, c ≠ Cell.nan) : l.foldl maxStep acc ≠ Cell.nan := by
  induction l generalizing acc with
  | nil => simp at h
  | cons c rest ih =>
    rw [List.foldl_cons]
    by_cases hc : c = Cell.nan
    · subst hc
      rw [maxStep_nan_right]
      obtain ⟨d, hd, hdn⟩ := h
      rcases List.mem_cons.mp hd with hh | hh
      · exact absurd hh hdn
      · exact ih _ ⟨d, hh, hdn⟩
    · exact foldl_maxStep_ne_nan_of_acc _ _ (maxStep_ne_nan _ _ (Or.inr hc))

theorem foldl_maxStep_ub (l : List Cell) (acc x : Cell)
    (hl : ∀ c ∈ l, isNumCell c = true) (hacc : isNumCell acc = true)
    (hx : isNumCell x = true) (hxn : x ≠ Cell.nan)
    (h : x ∈ l ∨ numLe x acc = true) :
    numLe x (l.foldl maxStep acc) = true := by
  induction l generalizing acc with
  | nil =>
    rcases h with h | h
    · simp at h
    · simpa using h
  | cons c rest ih =>
    rw [List.foldl_cons]
    have hcN : isNumCell c = true := hl c (List.mem_cons_self _ _)
    have hrest : ∀ d ∈ rest, isNumCell d = true :=
      fun d hd => hl d (List.mem_cons_of_mem _ hd)
    have hstepN : isNumCell (maxStep acc c) = true := maxStep_isNum _ _ hacc hcN
    rcases h with h | h
    · rcases List.mem_cons.mp h with hh | hh
      · subst hh
        exact ih (maxStep acc x) hrest hstepN
          (Or.inr (numLe_maxStep_right acc x hacc hx hxn))
      · exact ih (maxStep acc c) hrest hstepN (Or.inl hh)
    · exact ih (maxStep acc c) hrest hstepN
        (Or.inr (numLe_maxStep_left acc c x hacc hcN hx hxn h))

theorem maxSkipNa_all_nan (l : List Cell) (h : ∀ c ∈ l, c = Cell.nan) :
    maxSkipNa l = Cell.nan := foldl_maxStep_all_nan l Cell.nan h

theorem maxSkipNa_mem (l : List Cell) (h : ∃ c ∈ l, c ≠ Cell.nan) :
    maxSkipNa l ∈ l := by
  rcases List.mem_cons.mp (foldl_maxStep_mem l Cell.nan) with hh | hh
  · exact absurd hh (foldl_maxStep_ne_nan l Cell.nan h)
  · exact hh

theorem maxSkipNa_ub (l : List Cell) (x : Cell)
    (hl : ∀ c ∈ l, isNumCell c = true) (hx : x ∈ l) (hxn : x ≠ Cell.nan) :
    numLe x (maxSkipNa l) = true :=
  foldl_maxStep_ub l Cell.nan x hl rfl (hl x hx) hxn (Or.inl hx)

/-! ## Pipeline structure lemmas -/

theorem pipelineCore_annotated (ann zimT : Table) (t1 t2 t3 : Rat) :
    (pipelineCore ann zimT t1 t2 t3).annotated = (assignImpact (preImpact ann zimT)).1 := rfl

theorem pipelineCore_warnings (ann zimT : Table) (t1 t2 t3 : Rat) :
    (pipelineCore ann zimT t1 t2 t3).warnings = (assignImpact (preImpact ann zimT)).2 := rfl

theorem pipelineCore_prioritised (ann zimT : Table) (t1 t2 t3 : Rat) :
    (pipelineCore ann zimT t1 t2 t3).prioritised
      = addFlagsTable (gAllOf ann) (gAfrOf ann)
          { cols := (assignImpact (preImpact ann zimT)).1.cols,
            rows := (assignImpact (preImpact ann zimT)).1.rows.filter
              (keepMask (gAllOf ann) (gAfrOf ann) t1 t2 t3) } := rfl

theorem prioritise_ok_spec (ann zim : Table) (t1 t2 t3 : Rat) (out : POut)
    (h : prioritise ann zim t1 t2 t3 = .ok out) :
    reqAnnCols.find? (fun c => !(ann.cols.contains c)) = none
      ∧ ∃ zimT, loadZimDb zim = .ok zimT ∧ out = pipelineCore ann zimT t1 t2 t3 := by
  unfold prioritise at h
  cases hf : reqAnnCols.find? (fun c => !(ann.cols.contains c)) with
  | some c =>
    rw [hf] at h
    cases h
  | none =>
    rw [hf] at h
    cases hz : loadZimDb zim with
    | error e =>
      rw [hz] at h
      cases h
    | ok zimT =>
      rw [hz] at h
      cases h
      exact ⟨rfl, zimT, rfl, rfl⟩

theorem prioritise_find_some (ann zim : Table) (t1 t2 t3 : Rat) (c : String)
    (h : reqAnnCols.find? (fun c => !(ann.cols.contains c)) = some c) :
    prioritise ann zim t1 t2 t3
      = .error ("Missing required column \x27" ++ c ++ "\x27 in multianno file.") := by
  unfold prioritise
  rw [h]

theorem assignImpact_missing (m : Table)
    (h : (!(m.cols.contains funcCol) || !(m.cols.contains exonicFuncCol)) = true) :
    assignImpact m
      = (setColWith m "impact_tier" (fun _ => Cell.str "unknown"), [impactWarning]) := by
  unfold assignImpact
  rw [if_pos h]

theorem assignImpact_present (m : Table)
    (h : ¬ (!(m.cols.contains funcCol) || !(m.cols.contains exonicFuncCol)) = true) :
    assignImpact m
      = (setColWith m "impact_tier" (fun r => Cell.str (impactTier r)), []) := by
  unfold assignImpact
  rw [if_neg h]

theorem assignImpact_fst_rows (m : Table) :
    ∃ g : Row → Cell,
      (assignImpact m).1.rows = m.rows.map (fun r => setCell r "impact_tier" (g r)) := by
  unfold assignImpact
  by_cases h : (!(m.cols.contains funcCol) || !(m.cols.contains exonicFuncCol)) = true
  · rw [if_pos h]
    exact ⟨fun _ => Cell.str "unknown", rfl⟩
  · rw [if_neg h]
    exact ⟨fun r => Cell.str (impactTier r), rfl⟩

theorem assignImpact_cols_mem (m : Table) (c : String) :
    c ∈ (assignImpact m).1.cols ↔ c ∈ m.cols ∨ c = "impact_tier" := by
  unfold assignImpact
  by_cases h : (!(m.cols.contains funcCol) || !(m.cols.contains exonicFuncCol)) = true
  · rw [if_pos h]
    exact mem_setColWith_cols _ _ _ _
  · rw [if_neg h]
    exact mem_setColWith_cols _ _ _ _

theorem mem_mergeLeft_cols (l z : Table) (c : String) :
    c ∈ (mergeLeft l z).cols ↔ c ∈ l.cols ∨ (c ∈ z.cols ∧ ¬ keyCols.contains c = true) := by
  simp only [mergeLeft, List.mem_append, List.mem_filter]
  constructor
  · rintro (h | ⟨h1, h2⟩)
    · exact Or.inl h
    · exact Or.inr ⟨h1, by simpa using h2⟩
  · rintro (h | ⟨h1, h2⟩)
    · exact Or.inl h
    · exact Or.inr ⟨h1, by simpa using h2⟩

theorem mem_mergeLeft_rows (l z : Table) (m : Row) :
    m ∈ (mergeLeft l z).rows ↔
      ∃ a ∈ l.rows,
        ((∀ zz ∈ z.rows, rowKey zz ≠ rowKey a) ∧
            m = a ++ (z.cols.filter (fun c => !(keyCols.contains c))).map (fun c => (c, Cell.nan)))
          ∨ (∃ zz ∈ z.rows, rowKey zz = rowKey a ∧
              m = a ++ (z.cols.filter (fun c => !(keyCols.contains c))).map
                (fun c => (c, getCell zz c))) := by
  simp only [mergeLeft, List.mem_flatten, List.mem_map]
  constructor
  · rintro ⟨chunk, ⟨a, ha, hchunk⟩, hm⟩
    refine ⟨a, ha, ?_⟩
    by_cases he : (z.rows.filter (fun zz => decide (rowKey zz = rowKey a))).isEmpty = true
    · rw [← hchunk, if_pos he] at hm
      have hnone : ∀ zz ∈ z.rows, rowKey zz ≠ rowKey a := by
        intro zz hzz hkey
        have : zz ∈ z.rows.filter (fun zz => decide (rowKey zz = rowKey a)) :=
          List.mem_filter.mpr ⟨hzz, by simpa using hkey⟩
        rw [List.isEmpty_iff] at he
        rw [he] at this
        exact absurd this (List.not_mem_nil zz)
      exact Or.inl ⟨hnone, by simpa using hm⟩
    · rw [← hchunk, if_neg he] at hm
      obtain ⟨zz, hzz, hzzm⟩ := List.mem_map.mp hm
      have := List.mem_filter.mp hzz
      exact Or.inr ⟨zz, this.1, by simpa using this.2, hzzm.symm⟩
  · rintro ⟨a, ha, (⟨hnone, hm⟩ | ⟨zz, hzz, hkey, hm⟩)⟩
    · have he : (z.rows.filter (fun zz => decide (rowKey zz = rowKey a))).isEmpty = true := by
        rw [List.isEmpty_iff, List.filter_eq_nil_iff]
        intro zz hzz
        simpa using hnone zz hzz
      exact ⟨_, ⟨a, ha, rfl⟩, by rw [if_pos he]; simpa using hm⟩
    · have he : ¬ (z.rows.filter (fun zz => decide (rowKey zz = rowKey a))).isEmpty = true := by
        rw [List.isEmpty_iff]
        intro hnil
        have : zz ∈ z.rows.filter (fun zz => decide (rowKey zz = rowKey a)) :=
          List.mem_filter.mpr ⟨hzz, by simpa using hkey⟩
        rw [hnil] at this
        exact absurd this (List.not_mem_nil zz)
      refine ⟨_, ⟨a, ha, rfl⟩, ?_⟩
      rw [if_neg he]
      exact List.mem_map.mpr ⟨zz, List.mem_filter.mpr ⟨hzz, by simpa using hkey⟩, hm.symm⟩

theorem length_le_flatten (f : Row → List Row) (xs : List Row)
    (h : ∀ x ∈ xs, 1 ≤ (f x).length) : xs.length ≤ ((xs.map f).flatten).length := by
  induction xs with
  | nil => simp
  | cons a rest ih =>
    simp only [List.map_cons, List.flatten_cons, List.length_append, List.length_cons]
    have h1 := h a (List.mem_cons_self _ _)
    have h2 := ih (fun x hx => h x (List.mem_cons_of_mem _ hx))
    omega

theorem mergeLeft_length_ge (l z : Table) :
    l.rows.length ≤ (mergeLeft l z).rows.length := by
  simp only [mergeLeft]
  apply length_le_flatten
  intro a _
  split
  · simp
  · rename_i he
    rw [List.length_map]
    have hne : z.rows.filter (fun zz => decide (rowKey zz = rowKey a)) ≠ [] :=
      fun hnil => he (List.isEmpty_iff.mpr hnil)
    exact List.length_pos.mpr hne

theorem addFlagsTable_rows (gAll gAfr : Option String) (t : Table) :
    (addFlagsTable gAll gAfr t).rows = t.rows.map (addFlags gAll gAfr) := by
  cases gAll <;> cases gAfr <;>
    simp only [addFlagsTable, addFlags, setColWith_rows, List.map_map] <;> rfl

theorem cellIsin_lof_missense (c : Cell) :
    cellIsin c ["LoF", "missense"]
      = (decide (c = Cell.str "LoF") || decide (c = Cell.str "missense")) := by
  cases c <;> simp [cellIsin]

theorem keepMask_eq_spec (ann : Table) (t1 t2 t3 : Rat) (r : Row) :
    keepMask (gAllOf ann) (gAfrOf ann) t1 t2 t3 r = specKeepPred ann.cols t1 t2 t3 r := by
  unfold keepMask freqMaskB specKeepPred gAllOf gAfrOf
  rw [makeGnomadMaxCol_fst, makeGnomadMaxCol_fst]
  rw [cellIsin_lof_missense]
  cases hA : gnomadAllCandidates ann.cols <;> cases hB : gnomadAfrCandidates ann.cols <;>
    simp [List.isEmpty, Bool.and_assoc]

/-! ## Lookup-table lemmas for the loader -/

theorem findLast_foldl_none (m : List (String × String)) (k : String)
    (acc : Option String) :
    m.foldl (fun acc p => if p.1 = k then some p.2 else acc) acc = none
      ↔ acc = none ∧ ∀ p ∈ m, p.1 ≠ k := by
  induction m generalizing acc with
  | nil => simp
  | cons q rest ih =>
    rw [List.foldl_cons, ih]
    by_cases hq : q.1 = k
    · simp [hq]
    · simp only [if_neg hq]
      constructor
      · rintro ⟨h1, h2⟩
        refine ⟨h1, ?_⟩
        intro p hp
        rcases List.mem_cons.mp hp with hh | hh
        · exact hh ▸ hq
        · exact h2 p hh
      · rintro ⟨h1, h2⟩
        exact ⟨h1, fun p hp => h2 p (List.mem_cons_of_mem _ hp)⟩

theorem findLast_foldl_some (m : List (String × String)) (k : String)
    (acc : Option String) (v : String)
    (h : m.foldl (fun acc p => if p.1 = k then some p.2 else acc) acc = some v) :
    (∃ p ∈ m, p.1 = k ∧ p.2 = v) ∨ acc = some v := by
  induction m generalizing acc with
  | nil => exact Or.inr h
  | cons q rest ih =>
    rw [List.foldl_cons] at h
    rcases ih _ h with hh | hh
    · obtain ⟨p, hp, hpk, hpv⟩ := hh
      exact Or.inl ⟨p, List.mem_cons_of_mem _ hp, hpk, hpv⟩
    · by_cases hq : q.1 = k
      · rw [if_pos hq] at hh
        exact Or.inl ⟨q, List.mem_cons_self _ _, hq, by injection hh⟩
      · rw [if_neg hq] at hh
        exact Or.inr hh

theorem findLast_none_iff (m : List (String × String)) (k : String) :
    findLast m k = none ↔ ∀ p ∈ m, p.1 ≠ k := by
  unfold findLast
  rw [findLast_foldl_none]
  simp

theorem findLast_some_mem (m : List (String × String)) (k v : String)
    (h : findLast m k = some v) : ∃ p ∈ m, p.1 = k ∧ p.2 = v := by
  unfold findLast at h
  rcases findLast_foldl_some m k none v h with hh | hh
  · exact hh
  · cases hh

theorem findLast_lowerMap_some (cols : List String) (k v : String)
    (h : findLast (lowerMap cols) k = some v) : v ∈ cols ∧ strLower v = k := by
  obtain ⟨p, hp, hpk, hpv⟩ := findLast_some_mem _ _ _ h
  obtain ⟨c, hc, hcEq⟩ := List.mem_map.mp hp
  have h1 : c = v := by rw [← hcEq] at hpv; exact hpv
  have h2 : strLower c = k := by rw [← hcEq] at hpk; exact hpk
  exact ⟨h1 ▸ hc, h1 ▸ h2⟩

theorem findLast_lowerMap_isSome (cols : List String) (k : String) :
    (∃ v, findLast (lowerMap cols) k = some v) ↔ ∃ c ∈ cols, strLower c = k := by
  constructor
  · rintro ⟨v, hv⟩
    obtain ⟨h1, h2⟩ := findLast_lowerMap_some cols k v hv
    exact ⟨v, h1, h2⟩
  · rintro ⟨c, hc, hck⟩
    cases hv : findLast (lowerMap cols) k with
    | some v => exact ⟨v, rfl⟩
    | none =>
      rw [findLast_none_iff] at hv
      exact absurd hck (hv (strLower c, c) (List.mem_map.mpr ⟨c, hc, rfl⟩))

theorem selectCols_cols_mem (t : Table) (names : List String) (c : String)
    (h : c ∈ (selectCols t names).cols) : c ∈ names := by
  simp only [selectCols, List.mem_flatten] at h
  obtain ⟨chunk, hchunk, hc⟩ := h
  obtain ⟨n, hn, hnEq⟩ := List.mem_map.mp hchunk
  rw [← hnEq] at hc
  have := List.mem_filter.mp hc
  have hcn : c = n := by simpa using this.2
  exact hcn ▸ hn

theorem loadZimDb_ok_spec (df : Table) (t : Table) (h : loadZimDb df = .ok t) :
    ∃ cchr cstart cref calt dfA,
      findLast (lowerMap df.cols) "chr" = some cchr
      ∧ findLast (lowerMap df.cols) "start" = some cstart
      ∧ findLast (lowerMap df.cols) "ref" = some cref
      ∧ findLast (lowerMap df.cols) "alt" = some calt
      ∧ loadZimAf df (lowerMap df.cols) = .ok dfA
      ∧ t = selectCols
          (renameCols dfA [(cchr, "Chr"), (cstart, "Start"), (cref, "Ref"), (calt, "Alt")])
          ["Chr", "Start", "Ref", "Alt", "zim_AF"] := by
  unfold loadZimDb at h
  cases h1 : findLast (lowerMap df.cols) "chr" with
  | none => rw [h1] at h; cases h
  | some cchr =>
  rw [h1] at h
  cases h2 : findLast (lowerMap df.cols) "start" with
  | none => rw [h2] at h; cases h
  | some cstart =>
  rw [h2] at h
  cases h3 : findLast (lowerMap df.cols) "ref" with
  | none => rw [h3] at h; cases h
  | some cref =>
  rw [h3] at h
  cases h4 : findLast (lowerMap df.cols) "alt" with
  | none => rw [h4] at h; cases h
  | some calt =>
  rw [h4] at h
  cases h5 : loadZimAf df (lowerMap df.cols) with
  | error e => rw [h5] at h; cases h
  | ok dfA =>
  rw [h5] at h
  cases h
  exact ⟨cchr, cstart, cref, calt, dfA, rfl, rfl, rfl, rfl, rfl, rfl⟩

theorem loadZimDb_cols_sub (df t : Table) (h : loadZimDb df = .ok t) :
    ∀ c ∈ t.cols, c ∈ (["Chr", "Start", "Ref", "Alt", "zim_AF"] : List String) := by
  obtain ⟨cchr, cstart, cref, calt, dfA, -, -, -, -, -, ht⟩ := loadZimDb_ok_spec df t h
  intro c hc
  rw [ht] at hc
  exact selectCols_cols_mem _ _ _ hc

/-! ## Claim theorems -/

/-- C1: on every successful run, the prioritised output consists exactly
of the merged rows satisfying the conjunction of the three predicates —
each created max-column missing or at most its threshold (a max-column
that was not created imposes no condition), cohort frequency `zim_AF` at
most the cohort threshold, and impact tier `LoF` or `missense` — each
extended with the debug flags; hence a merged row appears in the
prioritised output if and only if all three predicates hold, and flipping
any one predicate to false removes it. -/
theorem claim1_filter_conjunction (ann zim : Table) (t1 t2 t3 : Rat) (out : POut)
    (h : prioritise ann zim t1 t2 t3 = .ok out) :
    out.prioritised.rows
        = (out.annotated.rows.filter (specKeepPred ann.cols t1 t2 t3)).map
            (addFlags (gAllOf ann) (gAfrOf ann))
      ∧ ∀ r2 : Row, r2 ∈ out.prioritised.rows ↔
          ∃ r ∈ out.annotated.rows, specKeepPred ann.cols t1 t2 t3 r = true
            ∧ r2 = addFlags (gAllOf ann) (gAfrOf ann) r := by
  obtain ⟨-, zimT, -, hout⟩ := prioritise_ok_spec ann zim t1 t2 t3 out h
  subst hout
  have h1 : (pipelineCore ann zimT t1 t2 t3).prioritised.rows
      = ((pipelineCore ann zimT t1 t2 t3).annotated.rows.filter
          (specKeepPred ann.cols t1 t2 t3)).map (addFlags (gAllOf ann) (gAfrOf ann)) := by
    rw [pipelineCore_prioritised, addFlagsTable_rows, pipelineCore_annotated]
    exact congrArg _ (List.filter_congr (fun r _ => keepMask_eq_spec ann t1 t2 t3 r))
  refine ⟨h1, fun r2 => ?_⟩
  rw [h1]
  simp only [List.mem_map, List.mem_filter]
  constructor
  · rintro ⟨r, ⟨hr, hs⟩, hr2⟩
    exact ⟨r, hr, hs, hr2.symm⟩
  · rintro ⟨r, hr, hs, hr2⟩
    exact ⟨r, ⟨hr, hs⟩, hr2.symm⟩

/-- Witness for C1 at the concrete run `annW`/`zimW`. -/
theorem claim1_witness :
    outW.prioritised.rows
      = (outW.annotated.rows.filter (specKeepPred annW.cols (mkRat 1 100) (mkRat 1 100) (mkRat 1 20))).map
          (addFlags (gAllOf annW) (gAfrOf annW)) :=
  (claim1_filter_conjunction annW zimW (mkRat 1 100) (mkRat 1 100) (mkRat 1 20) outW (by rfl)).1

/-- C3: the max-column builder returns no name and leaves the table
unchanged on an empty candidate list; otherwise it returns the new name,
keeps the row count, coerces every candidate to numeric (a non-numeric
string becomes missing), and sets the new column of each row to the
maximum over that row's non-missing candidate values — membership plus
upper bound — with an all-missing row yielding missing, not 0. -/
theorem claim3_max_col_builder (t : Table) (cands : List String) (newName : String)
    (hnew : ¬ newName ∈ cands) :
    (cands = [] → makeGnomadMaxCol t cands newName = (none, t))
  ∧ (cands ≠ [] →
      (makeGnomadMaxCol t cands newName).1 = some newName
      ∧ (makeGnomadMaxCol t cands newName).2.rows.length = t.rows.length
      ∧ ∀ i (hi : i < t.rows.length) (hi2 : i < (makeGnomadMaxCol t cands newName).2.rows.length),
          (∀ c ∈ cands,
            getCell ((makeGnomadMaxCol t cands newName).2.rows.get ⟨i, hi2⟩) c
              = toNumeric (getCell (t.rows.get ⟨i, hi⟩) c))
          ∧ getCell ((makeGnomadMaxCol t cands newName).2.rows.get ⟨i, hi2⟩) newName
              = maxSkipNa (cands.map (fun c => toNumeric (getCell (t.rows.get ⟨i, hi⟩) c)))
          ∧ ((∀ c ∈ cands, toNumeric (getCell (t.rows.get ⟨i, hi⟩) c) = Cell.nan) →
              getCell ((makeGnomadMaxCol t cands newName).2.rows.get ⟨i, hi2⟩) newName = Cell.nan)
          ∧ ((∃ c ∈ cands, toNumeric (getCell (t.rows.get ⟨i, hi⟩) c) ≠ Cell.nan) →
              (∃ c ∈ cands,
                getCell ((makeGnomadMaxCol t cands newName).2.rows.get ⟨i, hi2⟩) newName
                  = toNumeric (getCell (t.rows.get ⟨i, hi⟩) c))
              ∧ ∀ c ∈ cands, toNumeric (getCell (t.rows.get ⟨i, hi⟩) c) ≠ Cell.nan →
                  numLe (toNumeric (getCell (t.rows.get ⟨i, hi⟩) c))
                    (getCell ((makeGnomadMaxCol t cands newName).2.rows.get ⟨i, hi2⟩) newName)
                    = true))
  ∧ (∀ s : String, parseRat s = none → toNumeric (Cell.str s) = Cell.nan) := by
  refine ⟨?_, ?_, ?_⟩
  · intro hc
    subst hc
    rfl
  · intro hc
    have hne : ¬ cands.isEmpty = true := by
      cases cands with
      | nil => exact absurd rfl hc
      | cons a as => simp [List.isEmpty]
    refine ⟨by rw [makeGnomadMaxCol_fst, if_neg hne], ?_, ?_⟩
    · exact makeGnomadMaxCol_rows_length t cands newName
    · intro i hi hi2
      have hrow : (makeGnomadMaxCol t cands newName).2.rows.get ⟨i, hi2⟩
          = setCell (coerceRow cands (t.rows.get ⟨i, hi⟩)) newName
              (maxSkipNa (cands.map
                (fun c => getCell (coerceRow cands (t.rows.get ⟨i, hi⟩)) c))) := by
        exact get_map_of_eq _ _ _ (makeGnomadMaxCol_rows t cands newName hne) i hi hi2
      have hmapEq : cands.map (fun c => getCell (coerceRow cands (t.rows.get ⟨i, hi⟩)) c)
          = cands.map (fun c => toNumeric (getCell (t.rows.get ⟨i, hi⟩) c)) :=
        List.map_congr_left (fun c hcm => getCell_coerceRow_mem cands _ c hcm)
      have hval : getCell ((makeGnomadMaxCol t cands newName).2.rows.get ⟨i, hi2⟩) newName
          = maxSkipNa (cands.map (fun c => toNumeric (getCell (t.rows.get ⟨i, hi⟩) c))) := by
        rw [hrow, getCell_setCell_same, hmapEq]
      refine ⟨?_, hval, ?_, ?_⟩
      · intro c hcm
        have hnc : newName ≠ c := fun hh => hnew (hh ▸ hcm)
        rw [hrow, getCell_setCell_ne _ _ _ _ hnc]
        exact getCell_coerceRow_mem cands _ c hcm
      · intro hall
        rw [hval]
        apply maxSkipNa_all_nan
        intro c hcm
        obtain ⟨d, hd, hdEq⟩ := List.mem_map.mp hcm
        exact hdEq ▸ hall d hd
      · intro hsome
        have hnums : ∀ c ∈ cands.map (fun c => toNumeric (getCell (t.rows.get ⟨i, hi⟩) c)),
            isNumCell c = true := by
          intro c hcm
          obtain ⟨d, hd, hdEq⟩ := List.mem_map.mp hcm
          exact hdEq ▸ isNumCell_toNumeric _
        obtain ⟨c0, hc0, hc0n⟩ := hsome
        have hmemList : ∃ c ∈ cands.map (fun c => toNumeric (getCell (t.rows.get ⟨i, hi⟩) c)),
            c ≠ Cell.nan :=
          ⟨toNumeric (getCell (t.rows.get ⟨i, hi⟩) c0), List.mem_map.mpr ⟨c0, hc0, rfl⟩, hc0n⟩
        constructor
        · have := maxSkipNa_mem _ hmemList
          obtain ⟨d, hd, hdEq⟩ := List.mem_map.mp this
          exact ⟨d, hd, by rw [hval, ← hdEq]⟩
        · intro c hcm hcn
          rw [hval]
          exact maxSkipNa_ub _ _ hnums (List.mem_map.mpr ⟨c, hcm, rfl⟩) hcn
  · intro s hs
    simp [toNumeric, hs]

/-- Witness for C3: empty candidate list creates nothing; on `tC3` the
max column is 0.02 for the row [0.001, missing, 0.02] and missing for the
row with no numeric candidate. -/
theorem claim3_witness :
    makeGnomadMaxCol tC3 [] "gmax" = (none, tC3)
  ∧ (makeGnomadMaxCol tC3 ["a", "b", "c"] "gmax").1 = some "gmax"
  ∧ getCell ((makeGnomadMaxCol tC3 ["a", "b", "c"] "gmax").2.rows.getD 0 []) "gmax"
      = Cell.num (mkRat 1 50)
  ∧ getCell ((makeGnomadMaxCol tC3 ["a", "b", "c"] "gmax").2.rows.getD 1 []) "gmax"
      = Cell.nan :=
  ⟨(claim3_max_col_builder tC3 [] "gmax" (by decide)).1 rfl,
   ((claim3_max_col_builder tC3 ["a", "b", "c"] "gmax" (by decide)).2.1 (by decide)).1,
   by rfl, by rfl⟩

/-- C4: with both consequence columns present the classification is
applied row-wise with later assignments overriding earlier ones — LoF
last and therefore strongest; in particular an exonic consequence of
`stopgain` always classifies as LoF. -/
theorem claim4_impact_precedence :
    (∀ r : Row, getCell r exonicFuncCol = Cell.str "stopgain" → impactTier r = "LoF")
  ∧ (∀ r : Row, condLof r = true → impactTier r = "LoF")
  ∧ (∀ r : Row, condLof r = false → condMissense r = true → impactTier r = "missense")
  ∧ (∀ r : Row, condLof r = false → condMissense r = false → condSynonymous r = true →
      impactTier r = "synonymous")
  ∧ (∀ r : Row, condLof r = false → condMissense r = false → condSynonymous r = false →
      impactTier r = "other")
  ∧ (∀ m : Table, m.cols.contains funcCol = true → m.cols.contains exonicFuncCol = true →
      (assignImpact m).1.rows
        = m.rows.map (fun r => setCell r "impact_tier" (Cell.str (impactTier r)))) := by
  refine ⟨?_, ?_, ?_, ?_, ?_, ?_⟩
  · intro r h
    have hlof : condLof r = true := by
      simp [condLof, h, cellIsin, lofTerms]
    simp [impactTier, hlof]
  · intro r h
    simp [impactTier, h]
  · intro r h1 h2
    simp [impactTier, h1, h2]
  · intro r h1 h2 h3
    simp [impactTier, h1, h2, h3]
  · intro r h1 h2 h3
    simp [impactTier, h1, h2, h3]
  · intro m h1 h2
    have hcond : (!(m.cols.contains funcCol) || !(m.cols.contains exonicFuncCol)) = false := by
      rw [h1, h2]
      rfl
    rw [assignImpact_present m (by rw [hcond]; exact Bool.false_ne_true), setColWith_rows]

/-- Witness for C4 at concrete rows. -/
theorem claim4_witness :
    impactTier [(exonicFuncCol, Cell.str "stopgain")] = "LoF"
  ∧ impactTier [(exonicFuncCol, Cell.str "nonsynonymous SNV")] = "missense"
  ∧ impactTier [(exonicFuncCol, Cell.str "synonymous SNV")] = "synonymous"
  ∧ impactTier [(exonicFuncCol, Cell.str "upstream")] = "other" :=
  ⟨claim4_impact_precedence.1 _ (by rfl),
   claim4_impact_precedence.2.2.1 _ (by rfl) (by rfl),
   claim4_impact_precedence.2.2.2.1 _ (by rfl) (by rfl) (by rfl),
   claim4_impact_precedence.2.2.2.2.1 _ (by rfl) (by rfl) (by rfl)⟩

/-- C9: the pipeline is deterministic — two runs on the same inputs and
thresholds produce the same two output files, byte for byte.  (In this
embedding the whole run, including serialisation, is a pure function of
the input tables and thresholds; the program has no randomness, clock or
environment dependence.) -/
theorem claim9_deterministic (ann zim : Table) (t1 t2 t3 : Rat)
    (o1 o2 : Except String (String × String))
    (h1 : runPipeline ann zim t1 t2 t3 = o1) (h2 : runPipeline ann zim t1 t2 t3 = o2) :
    o1 = o2 :=
  h1.symm.trans h2

/-- Witness for C9 at the concrete run. -/
theorem claim9_witness :
    runPipeline annW zimW (mkRat 1 100) (mkRat 1 100) (mkRat 1 20)
      = runPipeline annW zimW (mkRat 1 100) (mkRat 1 100) (mkRat 1 20) :=
  claim9_deterministic annW zimW (mkRat 1 100) (mkRat 1 100) (mkRat 1 20) _ _ rfl rfl

/-- Counterexample for C6: on a table lacking `Chr` (but containing a
column `Zzz`), the fatal diagnostic is exactly
`Missing required column 'Chr' in multianno file.` — it names the missing
requirement but does not list the columns actually found (the name `Zzz`
does not occur in it). -/
theorem claim6_counterexample :
    prioritise annC6 zimW (mkRat 1 100) (mkRat 1 100) (mkRat 1 20)
        = .error "Missing required column \x27Chr\x27 in multianno file."
    ∧ strContains "Missing required column \x27Chr\x27 in multianno file." "Zzz" = false :=
  ⟨rfl, rfl⟩

/-- C6 (amended): a missing identity column is fatal before any output is
produced, and the diagnostic names the (first) missing column; unlike the
cohort-table check, it does not list the columns actually found. -/
theorem claim6_missing_column_fatal (ann zim : Table) (t1 t2 t3 : Rat)
    (h : ∃ c ∈ reqAnnCols, ¬ c ∈ ann.cols) :
    ∃ c, c ∈ reqAnnCols ∧ ¬ c ∈ ann.cols
      ∧ prioritise ann zim t1 t2 t3
          = .error ("Missing required column \x27" ++ c ++ "\x27 in multianno file.")
      ∧ ∀ o : POut, ¬ prioritise ann zim t1 t2 t3 = .ok o := by
  have hs : (reqAnnCols.find? (fun c => !(ann.cols.contains c))).isSome = true := by
    rw [List.find?_isSome]
    obtain ⟨c, hc1, hc2⟩ := h
    refine ⟨c, hc1, ?_⟩
    have hcc : ann.cols.contains c = false := by
      cases hcc2 : ann.cols.contains c with
      | true => exact absurd (List.mem_of_elem_eq_true hcc2) hc2
      | false => rfl
    rw [hcc]
    rfl
  obtain ⟨c, hc⟩ := Option.isSome_iff_exists.mp hs
  have hp := List.find?_some hc
  have hmem := List.mem_of_find?_eq_some hc
  refine ⟨c, hmem, ?_, prioritise_find_some ann zim t1 t2 t3 c hc, ?_⟩
  · intro hin
    have hcont : ann.cols.contains c = true := List.elem_eq_true_of_mem hin
    rw [hcont] at hp
    cases hp
  · intro o ho
    rw [prioritise_find_some ann zim t1 t2 t3 c hc] at ho
    cases ho

theorem gnomadAllCandidates_sub (cols : List String) (c : String)
    (h : c ∈ gnomadAllCandidates cols) : c ∈ cols :=
  List.mem_of_mem_filter h

theorem gnomadAfrCandidates_sub (cols : List String) (c : String)
    (h : c ∈ gnomadAfrCandidates cols) : c ∈ cols :=
  List.mem_of_mem_filter h

theorem mem_preImpact_cols_elim (ann zimT : Table) (c : String)
    (h : c ∈ (preImpact ann zimT).cols) :
    c ∈ ann.cols ∨ c = "gnomad_AF_max" ∨ c = "gnomad_AFR_AF_max" ∨ c = "zim_AF"
      ∨ c ∈ zimT.cols := by
  unfold preImpact fillnaCol at h
  rw [mem_setColWith_cols] at h
  rcases h with h | h
  · rw [mem_mergeLeft_cols] at h
    rcases h with h | ⟨h, -⟩
    · unfold annMaxed at h
      rw [makeGnomadMaxCol_cols_mem] at h
      rcases h with h | ⟨-, h⟩
      · rw [makeGnomadMaxCol_cols_mem] at h
        rcases h with h | ⟨-, h⟩
        · tauto
        · rcases h with h | h
          · have hsub := gnomadAllCandidates_sub _ _ h
            tauto
          · tauto
      · rcases h with h | h
        · have hsub := gnomadAfrCandidates_sub _ _ h
          tauto
        · tauto
    · tauto
  · tauto

/-- Witness for the amended C6 at `annC6`. -/
theorem claim6_witness :
    ∃ c, c ∈ reqAnnCols ∧ ¬ c ∈ annC6.cols
      ∧ prioritise annC6 zimW (mkRat 1 100) (mkRat 1 100) (mkRat 1 20)
          = .error ("Missing required column \x27" ++ c ++ "\x27 in multianno file.")
      ∧ ∀ o : POut,
          ¬ prioritise annC6 zimW (mkRat 1 100) (mkRat 1 100) (mkRat 1 20) = .ok o :=
  claim6_missing_column_fatal annC6 zimW (mkRat 1 100) (mkRat 1 100) (mkRat 1 20)
    ⟨"Chr", by decide, by decide⟩

/-- C5: when the annotation table lacks `Func.refGene` or
`ExonicFunc.refGene` (given valid identity columns and a loadable cohort
table) the pipeline still succeeds: the degraded-mode warning is emitted,
every merged row gets impact tier `unknown`, the prioritised output is
empty, and the annotated output is still produced in full (at least one
output row per input row). -/
theorem claim5_degraded_mode (ann zim zimT : Table) (t1 t2 t3 : Rat)
    (hreq : ∀ c ∈ reqAnnCols, c ∈ ann.cols)
    (hz : loadZimDb zim = .ok zimT)
    (hmiss : ¬ funcCol ∈ ann.cols ∨ ¬ exonicFuncCol ∈ ann.cols) :
    ∃ out, prioritise ann zim t1 t2 t3 = .ok out
      ∧ impactWarning ∈ out.warnings
      ∧ (∀ r ∈ out.annotated.rows, getCell r "impact_tier" = Cell.str "unknown")
      ∧ out.prioritised.rows = []
      ∧ ann.rows.length ≤ out.annotated.rows.length := by
  have hfind : reqAnnCols.find? (fun c => !(ann.cols.contains c)) = none := by
    rw [List.find?_eq_none]
    intro c hcm
    have hcc : ann.cols.contains c = true := List.elem_eq_true_of_mem (hreq c hcm)
    rw [hcc]
    simp
  have hbr : (!((preImpact ann zimT).cols.contains funcCol)
      || !((preImpact ann zimT).cols.contains exonicFuncCol)) = true := by
    have habs : ∀ d : String, ¬ d ∈ ann.cols → d ≠ "gnomad_AF_max" → d ≠ "gnomad_AFR_AF_max" →
        d ≠ "zim_AF" → ¬ d ∈ (["Chr", "Start", "Ref", "Alt", "zim_AF"] : List String) →
        (preImpact ann zimT).cols.contains d = false := by
      intro d h1 h2 h3 h4 h5
      cases hcd : (preImpact ann zimT).cols.contains d with
      | false => rfl
      | true =>
        exfalso
        rcases mem_preImpact_cols_elim ann zimT d (List.mem_of_elem_eq_true hcd) with
          h | h | h | h | h
        · exact h1 h
        · exact h2 h
        · exact h3 h
        · exact h4 h
        · exact h5 (loadZimDb_cols_sub zim zimT hz d h)
    rcases hmiss with hm | hm
    · rw [habs funcCol hm (by decide) (by decide) (by decide) (by decide)]
      rfl
    · rw [habs exonicFuncCol hm (by decide) (by decide) (by decide) (by decide)]
      simp
  refine ⟨pipelineCore ann zimT t1 t2 t3, ?_, ?_, ?_, ?_, ?_⟩
  · unfold prioritise
    rw [hfind, hz]
  · rw [pipelineCore_warnings, assignImpact_missing _ hbr]
    simp
  · intro r hr
    rw [pipelineCore_annotated, assignImpact_missing _ hbr] at hr
    simp only [setColWith_rows] at hr
    obtain ⟨r0, -, hEq⟩ := List.mem_map.mp hr
    rw [← hEq, getCell_setCell_same]
  · rw [pipelineCore_prioritised, addFlagsTable_rows]
    have hnil : ((assignImpact (preImpact ann zimT)).1.rows.filter
        (keepMask (gAllOf ann) (gAfrOf ann) t1 t2 t3)) = [] := by
      rw [List.filter_eq_nil_iff]
      intro r hr
      rw [assignImpact_missing _ hbr] at hr
      simp only [setColWith_rows] at hr
      obtain ⟨r0, -, hEq⟩ := List.mem_map.mp hr
      have himp : getCell r "impact_tier" = Cell.str "unknown" := by
        rw [← hEq, getCell_setCell_same]
      simp [keepMask, himp, cellIsin]
    simp [hnil]
  · rw [pipelineCore_annotated]
    obtain ⟨g, hg⟩ := assignImpact_fst_rows (preImpact ann zimT)
    rw [hg, List.length_map]
    have h1 : ann.rows.length = (annMaxed ann).rows.length := by
      unfold annMaxed
      rw [makeGnomadMaxCol_rows_length, makeGnomadMaxCol_rows_length]
    unfold preImpact fillnaCol
    rw [setColWith_rows, List.length_map]
    rw [h1]
    exact mergeLeft_length_ge _ _

theorem rcols_keys_ne (z : Table) (f : String → Cell) (p : String × Cell)
    (hp : p ∈ (z.cols.filter (fun c => !(keyCols.contains c))).map (fun c => (c, f c))) :
    p.1 ≠ "Chr" ∧ p.1 ≠ "Start" ∧ p.1 ≠ "Ref" ∧ p.1 ≠ "Alt" := by
  obtain ⟨c, hc, hcEq⟩ := List.mem_map.mp hp
  have hcf := (List.mem_filter.mp hc).2
  have hp1 : p.1 = c := by rw [← hcEq]
  refine ⟨?_, ?_, ?_, ?_⟩ <;> intro hh <;> rw [hp1] at hh <;> rw [hh] at hcf <;>
    exact absurd hcf (by decide)

theorem rowKey_append_ext (a ext : Row)
    (h : ∀ p ∈ ext, p.1 ≠ "Chr" ∧ p.1 ≠ "Start" ∧ p.1 ≠ "Ref" ∧ p.1 ≠ "Alt") :
    rowKey (a ++ ext) = rowKey a := by
  simp only [rowKey, keyCols, List.map]
  rw [getCell_append_right _ _ _ (fun p hp => (h p hp).1),
    getCell_append_right _ _ _ (fun p hp => (h p hp).2.1),
    getCell_append_right _ _ _ (fun p hp => (h p hp).2.2.1),
    getCell_append_right _ _ _ (fun p hp => (h p hp).2.2.2)]

theorem zimAF_fill_zero (AM zimT : Table)
    (hAM : ∀ a ∈ AM.rows, ∀ p ∈ a, p.1 ≠ "zim_AF")
    (r : Row) (hr : r ∈ (fillnaCol (mergeLeft AM zimT) "zim_AF" (Cell.num 0)).rows)
    (hm : ∀ z ∈ zimT.rows, rowKey z = rowKey r → getCell z "zim_AF" = Cell.nan) :
    getCell r "zim_AF" = Cell.num 0 := by
  unfold fillnaCol at hr
  rw [setColWith_rows] at hr
  obtain ⟨m, hmem, hrEq⟩ := List.mem_map.mp hr
  subst hrEq
  rw [getCell_setCell_same]
  suffices hnan : getCell m "zim_AF" = Cell.nan by rw [hnan]
  obtain ⟨a, ha, hcase⟩ := (mem_mergeLeft_rows AM zimT m).mp hmem
  have hlacks := hAM a ha
  rcases hcase with ⟨hnone, hmEq⟩ | ⟨zz, hzz, hkey, hmEq⟩
  · subst hmEq
    rw [getCell_append_left _ _ _ hlacks, getCell_map_pairs]
    split <;> rfl
  · have hkr : rowKey zz
        = rowKey (setCell m "zim_AF"
            (match getCell m "zim_AF" with | Cell.nan => Cell.num 0 | x => x)) := by
      rw [rowKey_setCell _ _ _ (by decide) (by decide) (by decide) (by decide)]
      rw [hmEq, rowKey_append_ext _ _ (rcols_keys_ne zimT _)]
      exact hkey
    have hznan := hm zz hzz hkr
    rw [hmEq, getCell_append_left _ _ _ hlacks, getCell_map_pairs]
    split
    · exact hznan
    · rfl

theorem annMaxed_lacks (ann : Table) (hcols : ¬ "zim_AF" ∈ ann.cols)
    (hrows : ∀ a ∈ ann.rows, ∀ p ∈ a, p.1 ≠ "zim_AF") :
    ∀ a ∈ (annMaxed ann).rows, ∀ p ∈ a, p.1 ≠ "zim_AF" := by
  unfold annMaxed
  have hc1 : ∀ c ∈ gnomadAllCandidates ann.cols, c ≠ "zim_AF" :=
    fun c hcm hh => hcols (hh ▸ gnomadAllCandidates_sub _ _ hcm)
  have hc2 : ∀ c ∈ gnomadAfrCandidates ann.cols, c ≠ "zim_AF" :=
    fun c hcm hh => hcols (hh ▸ gnomadAfrCandidates_sub _ _ hcm)
  exact makeGnomadMaxCol_lacks _ _ _ _ (by decide) hc2
    (makeGnomadMaxCol_lacks _ _ _ _ (by decide) hc1 hrows)

/-- Witness for C5 at the concrete run `annPlain`/`zimW`. -/
theorem claim5_witness :
    ∃ out, prioritise annPlain zimW (mkRat 1 100) (mkRat 1 100) (mkRat 1 20) = .ok out
      ∧ impactWarning ∈ out.warnings
      ∧ (∀ r ∈ out.annotated.rows, getCell r "impact_tier" = Cell.str "unknown")
      ∧ out.prioritised.rows = []
      ∧ annPlain.rows.length ≤ out.annotated.rows.length :=
  claim5_degraded_mode annPlain zimW zimTW (mkRat 1 100) (mkRat 1 100) (mkRat 1 20)
    (by decide) (by rfl) (Or.inl (by decide))

/-- C2: in every successful run, a merged row whose (Chr, Start, Ref,
Alt) key matches no record of the loaded cohort table carries
`zim_AF = 0.0` exactly — a number, not a missing value.  (The schema
hypotheses say only that the annotation table does not itself carry a
`zim_AF` column.) -/
theorem claim2_cohort_default_zero (ann zim zimT : Table) (t1 t2 t3 : Rat) (out : POut)
    (h : prioritise ann zim t1 t2 t3 = .ok out)
    (hz : loadZimDb zim = .ok zimT)
    (hcols : ¬ "zim_AF" ∈ ann.cols)
    (hrows : ∀ a ∈ ann.rows, ∀ p ∈ a, p.1 ≠ "zim_AF")
    (r : Row) (hr : r ∈ out.annotated.rows)
    (hnomatch : ∀ z ∈ zimT.rows, rowKey z ≠ rowKey r) :
    getCell r "zim_AF" = Cell.num 0 := by
  obtain ⟨-, zimT2, hz2, hout⟩ := prioritise_ok_spec ann zim t1 t2 t3 out h
  rw [hz] at hz2
  injection hz2 with hzz
  subst hzz
  subst hout
  rw [pipelineCore_annotated] at hr
  obtain ⟨g, hrowsEq⟩ := assignImpact_fst_rows (preImpact ann zimT)
  rw [hrowsEq] at hr
  obtain ⟨r1, hr1, hrEq⟩ := List.mem_map.mp hr
  have hkeyEq : rowKey r = rowKey r1 := by
    rw [← hrEq]
    exact rowKey_setCell r1 "impact_tier" _ (by decide) (by decide) (by decide) (by decide)
  have hval : getCell r1 "zim_AF" = Cell.num 0 := by
    apply zimAF_fill_zero (annMaxed ann) zimT (annMaxed_lacks ann hcols hrows) r1 hr1
    intro z hzmem hzkey
    exact absurd (hzkey.trans hkeyEq.symm) (hnomatch z hzmem)
  rw [← hrEq, getCell_setCell_ne _ _ _ _ (by decide), hval]

/-- Witness for C2 at the concrete run (empty cohort: every merged row is
unmatched). -/
theorem claim2_witness : getCell rW "zim_AF" = Cell.num 0 :=
  claim2_cohort_default_zero annW zimW zimTW (mkRat 1 100) (mkRat 1 100) (mkRat 1 20) outW
    (by rfl) (by rfl) (by decide) (by decide) rW (by decide) (by decide)

/-- Counterexample for C10: a matched cohort record with
`zim_AC = 3, zim_AN = 0` yields `zim_AF = +inf` in the merged output —
not 0.0 — and the row then fails the cohort predicate. -/
theorem claim10_counterexample :
    (prioritise annPlain zimC10 (mkRat 1 100) (mkRat 1 100) (mkRat 1 20)).toOption.map
        (fun o => (o.annotated.rows.map (fun r => getCell r "zim_AF"),
          o.prioritised.rows.length))
      = some ([Cell.pinf], 0)
    ∧ Cell.pinf ≠ Cell.num 0
    ∧ cellLe Cell.pinf (mkRat 1 20) = false :=
  ⟨rfl, by decide, rfl⟩

/-- C10 (amended): a merged row all of whose matching cohort records
carry a missing (NaN) derived frequency — count or number non-numeric or
missing, or a 0/0 division — gets `zim_AF = 0.0`, indistinguishable from
an absent record, and passes the cohort predicate for every non-negative
threshold.  (A positive count over a zero number instead yields `+inf`,
which is not replaced by the fill and fails the predicate — see the
counterexample.) -/
theorem claim10_unknown_cohort_frequency (ann zim zimT : Table) (t1 t2 t3 : Rat) (out : POut)
    (h : prioritise ann zim t1 t2 t3 = .ok out)
    (hz : loadZimDb zim = .ok zimT)
    (hcols : ¬ "zim_AF" ∈ ann.cols)
    (hrows : ∀ a ∈ ann.rows, ∀ p ∈ a, p.1 ≠ "zim_AF")
    (r : Row) (hr : r ∈ out.annotated.rows)
    (hnan : ∀ z ∈ zimT.rows, rowKey z = rowKey r → getCell z "zim_AF" = Cell.nan) :
    getCell r "zim_AF" = Cell.num 0
      ∧ ∀ t : Rat, 0 ≤ t → cellLe (getCell r "zim_AF") t = true := by
  obtain ⟨-, zimT2, hz2, hout⟩ := prioritise_ok_spec ann zim t1 t2 t3 out h
  rw [hz] at hz2
  injection hz2 with hzz
  subst hzz
  subst hout
  rw [pipelineCore_annotated] at hr
  obtain ⟨g, hrowsEq⟩ := assignImpact_fst_rows (preImpact ann zimT)
  rw [hrowsEq] at hr
  obtain ⟨r1, hr1, hrEq⟩ := List.mem_map.mp hr
  have hkeyEq : rowKey r = rowKey r1 := by
    rw [← hrEq]
    exact rowKey_setCell r1 "impact_tier" _ (by decide) (by decide) (by decide) (by decide)
  have hval : getCell r1 "zim_AF" = Cell.num 0 := by
    apply zimAF_fill_zero (annMaxed ann) zimT (annMaxed_lacks ann hcols hrows) r1 hr1
    intro z hzmem hzkey
    exact hnan z hzmem (hzkey.trans hkeyEq.symm)
  have hcell : getCell r "zim_AF" = Cell.num 0 := by
    rw [← hrEq, getCell_setCell_ne _ _ _ _ (by decide), hval]
  refine ⟨hcell, fun t ht => ?_⟩
  rw [hcell]
  simpa [cellLe] using ht

theorem getCell_addFlags_notflag (gA gF : Option String) (r0 : Row) (k : String)
    (h1 : k ≠ "flag_high_zim_af") (h2 : k ≠ "flag_common_gnomad")
    (h3 : k ≠ "flag_common_gnomad_afr") :
    getCell (addFlags gA gF r0) k = getCell r0 k := by
  unfold addFlags
  cases gA <;> cases gF <;> simp only []
  · exact getCell_setCell_ne _ _ _ _ (Ne.symm h1)
  · rw [getCell_setCell_ne _ _ _ _ (Ne.symm h3)]
    exact getCell_setCell_ne _ _ _ _ (Ne.symm h1)
  · rw [getCell_setCell_ne _ _ _ _ (Ne.symm h2)]
    exact getCell_setCell_ne _ _ _ _ (Ne.symm h1)
  · rw [getCell_setCell_ne _ _ _ _ (Ne.symm h3), getCell_setCell_ne _ _ _ _ (Ne.symm h2)]
    exact getCell_setCell_ne _ _ _ _ (Ne.symm h1)

theorem getCell_addFlags_high (gA gF : Option String) (r0 : Row) :
    getCell (addFlags gA gF r0) "flag_high_zim_af"
      = Cell.bool (cellGt (getCell r0 "zim_AF") (mkRat 1 100)) := by
  unfold addFlags
  cases gA <;> cases gF <;> simp only []
  · exact getCell_setCell_same _ _ _
  · rw [getCell_setCell_ne _ _ _ _ (by decide)]
    exact getCell_setCell_same _ _ _
  · rw [getCell_setCell_ne _ _ _ _ (by decide)]
    exact getCell_setCell_same _ _ _
  · rw [getCell_setCell_ne _ _ _ _ (by decide), getCell_setCell_ne _ _ _ _ (by decide)]
    exact getCell_setCell_same _ _ _

theorem getCell_addFlags_cg (gA gF : Option String) (r0 : Row) (n : String)
    (hA : gA = some n) (hn1 : n ≠ "flag_high_zim_af") :
    getCell (addFlags gA gF r0) "flag_common_gnomad"
      = Cell.bool (cellGt (getCell r0 n) (mkRat 1 100)) := by
  subst hA
  unfold addFlags
  cases gF <;> simp only []
  · rw [getCell_setCell_same, getCell_setCell_ne _ _ _ _ (Ne.symm hn1)]
  · rw [getCell_setCell_ne _ _ _ _ (by decide), getCell_setCell_same,
      getCell_setCell_ne _ _ _ _ (Ne.symm hn1)]

theorem getCell_addFlags_cga (gA gF : Option String) (r0 : Row) (n : String)
    (hF : gF = some n) (hn1 : n ≠ "flag_high_zim_af") (hn2 : n ≠ "flag_common_gnomad") :
    getCell (addFlags gA gF r0) "flag_common_gnomad_afr"
      = Cell.bool (cellGt (getCell r0 n) (mkRat 1 100)) := by
  subst hF
  unfold addFlags
  cases gA <;> simp only []
  · rw [getCell_setCell_same, getCell_setCell_ne _ _ _ _ (Ne.symm hn1)]
  · rw [getCell_setCell_same, getCell_setCell_ne _ _ _ _ (Ne.symm hn2),
      getCell_setCell_ne _ _ _ _ (Ne.symm hn1)]

theorem mem_addFlagsTable_cols (gA gF : Option String) (t : Table) (c : String) :
    c ∈ (addFlagsTable gA gF t).cols ↔
      c ∈ t.cols ∨ c = "flag_high_zim_af"
        ∨ (gA.isSome = true ∧ c = "flag_common_gnomad")
        ∨ (gF.isSome = true ∧ c = "flag_common_gnomad_afr") := by
  cases gA <;> cases gF <;> unfold addFlagsTable <;>
    simp only [mem_setColWith_cols, Option.isSome] <;> tauto

theorem annotated_cols_elim (ann zimT : Table) (c : String)
    (h : c ∈ (assignImpact (preImpact ann zimT)).1.cols) :
    c ∈ ann.cols ∨ c = "gnomad_AF_max" ∨ c = "gnomad_AFR_AF_max" ∨ c = "zim_AF"
      ∨ c ∈ zimT.cols ∨ c = "impact_tier" := by
  rw [assignImpact_cols_mem] at h
  rcases h with h | h
  · have hpre := mem_preImpact_cols_elim ann zimT c h
    tauto
  · tauto

/-- Witness for the amended C10 at the concrete run with a matched
record whose count is the non-numeric string `NA`. -/
theorem claim10_witness :
    getCell rC10 "zim_AF" = Cell.num 0
      ∧ ∀ t : Rat, 0 ≤ t → cellLe (getCell rC10 "zim_AF") t = true :=
  claim10_unknown_cohort_frequency annPlain zimC10w zimTC10
    (mkRat 1 100) (mkRat 1 100) (mkRat 1 20) outC10
    (by rfl) (by rfl) (by decide) (by decide) rC10 (by decide) (by decide)

/-- C8: the debug flag columns are attached only to the prioritised
subset — the annotated output has none of them (given that the input did
not carry columns of those names) — and each flag uses the fixed
threshold 0.01 independently of the configured thresholds:
`flag_high_zim_af` is true exactly when the row's `zim_AF` exceeds 0.01,
and each created max-column gets a common-variant flag true exactly when
that column's value exceeds 0.01. -/
theorem claim8_debug_flags (ann zim : Table) (t1 t2 t3 : Rat) (out : POut)
    (h : prioritise ann zim t1 t2 t3 = .ok out)
    (hf1 : ¬ "flag_high_zim_af" ∈ ann.cols)
    (hf2 : ¬ "flag_common_gnomad" ∈ ann.cols)
    (hf3 : ¬ "flag_common_gnomad_afr" ∈ ann.cols) :
    (¬ "flag_high_zim_af" ∈ out.annotated.cols
      ∧ ¬ "flag_common_gnomad" ∈ out.annotated.cols
      ∧ ¬ "flag_common_gnomad_afr" ∈ out.annotated.cols)
    ∧ "flag_high_zim_af" ∈ out.prioritised.cols
    ∧ (∀ r ∈ out.prioritised.rows,
        getCell r "flag_high_zim_af"
          = Cell.bool (cellGt (getCell r "zim_AF") (mkRat 1 100)))
    ∧ (gnomadAllCandidates ann.cols ≠ [] →
        "flag_common_gnomad" ∈ out.prioritised.cols
        ∧ ∀ r ∈ out.prioritised.rows,
            getCell r "flag_common_gnomad"
              = Cell.bool (cellGt (getCell r "gnomad_AF_max") (mkRat 1 100)))
    ∧ (gnomadAfrCandidates ann.cols ≠ [] →
        "flag_common_gnomad_afr" ∈ out.prioritised.cols
        ∧ ∀ r ∈ out.prioritised.rows,
            getCell r "flag_common_gnomad_afr"
              = Cell.bool (cellGt (getCell r "gnomad_AFR_AF_max") (mkRat 1 100))) := by
  obtain ⟨-, zimT, hz, hout⟩ := prioritise_ok_spec ann zim t1 t2 t3 out h
  subst hout
  have hnotann : ∀ d : String, ¬ d ∈ ann.cols → d ≠ "gnomad_AF_max" →
      d ≠ "gnomad_AFR_AF_max" → d ≠ "zim_AF" → d ≠ "impact_tier" →
      ¬ d ∈ (["Chr", "Start", "Ref", "Alt", "zim_AF"] : List String) →
      ¬ d ∈ (pipelineCore ann zimT t1 t2 t3).annotated.cols := by
    intro d h1 h2 h3 h4 h5 h6 hin
    rw [pipelineCore_annotated] at hin
    rcases annotated_cols_elim ann zimT d hin with hh | hh | hh | hh | hh | hh
    · exact h1 hh
    · exact h2 hh
    · exact h3 hh
    · exact h4 hh
    · exact h6 (loadZimDb_cols_sub zim zimT hz d hh)
    · exact h5 hh
  have hrows2 : (pipelineCore ann zimT t1 t2 t3).prioritised.rows
      = ((assignImpact (preImpact ann zimT)).1.rows.filter
          (keepMask (gAllOf ann) (gAfrOf ann) t1 t2 t3)).map
        (addFlags (gAllOf ann) (gAfrOf ann)) := by
    rw [pipelineCore_prioritised, addFlagsTable_rows]
  refine ⟨⟨?_, ?_, ?_⟩, ?_, ?_, ?_, ?_⟩
  · exact hnotann _ hf1 (by decide) (by decide) (by decide) (by decide) (by decide)
  · exact hnotann _ hf2 (by decide) (by decide) (by decide) (by decide) (by decide)
  · exact hnotann _ hf3 (by decide) (by decide) (by decide) (by decide) (by decide)
  · rw [pipelineCore_prioritised, mem_addFlagsTable_cols]
    exact Or.inr (Or.inl rfl)
  · intro r hr
    rw [hrows2] at hr
    obtain ⟨r0, -, hEq⟩ := List.mem_map.mp hr
    rw [← hEq, getCell_addFlags_high,
      getCell_addFlags_notflag _ _ _ _ (by decide) (by decide) (by decide)]
  · intro hne
    have hA : gAllOf ann = some "gnomad_AF_max" := by
      unfold gAllOf
      rw [makeGnomadMaxCol_fst]
      by_cases he : (gnomadAllCandidates ann.cols).isEmpty = true
      · exact absurd (List.isEmpty_iff.mp he) hne
      · rw [if_neg he]
    constructor
    · rw [pipelineCore_prioritised, mem_addFlagsTable_cols]
      refine Or.inr (Or.inr (Or.inl ⟨?_, rfl⟩))
      rw [hA]
      rfl
    · intro r hr
      rw [hrows2] at hr
      obtain ⟨r0, -, hEq⟩ := List.mem_map.mp hr
      rw [← hEq, getCell_addFlags_cg _ _ _ _ hA (by decide),
        getCell_addFlags_notflag _ _ _ _ (by decide) (by decide) (by decide)]
  · intro hne
    have hF : gAfrOf ann = some "gnomad_AFR_AF_max" := by
      unfold gAfrOf
      rw [makeGnomadMaxCol_fst]
      by_cases he : (gnomadAfrCandidates ann.cols).isEmpty = true
      · exact absurd (List.isEmpty_iff.mp he) hne
      · rw [if_neg he]
    constructor
    · rw [pipelineCore_prioritised, mem_addFlagsTable_cols]
      refine Or.inr (Or.inr (Or.inr ⟨?_, rfl⟩))
      rw [hF]
      rfl
    · intro r hr
      rw [hrows2] at hr
      obtain ⟨r0, -, hEq⟩ := List.mem_map.mp hr
      rw [← hEq, getCell_addFlags_cga _ _ _ _ hF (by decide) (by decide),
        getCell_addFlags_notflag _ _ _ _ (by decide) (by decide) (by decide)]

/-- Witness for C8 at the concrete run `annW`/`zimW` (both max-columns
created). -/
theorem claim8_witness :
    (¬ "flag_high_zim_af" ∈ outW.annotated.cols
      ∧ ¬ "flag_common_gnomad" ∈ outW.annotated.cols
      ∧ ¬ "flag_common_gnomad_afr" ∈ outW.annotated.cols)
    ∧ "flag_high_zim_af" ∈ outW.prioritised.cols
    ∧ (∀ r ∈ outW.prioritised.rows,
        getCell r "flag_high_zim_af"
          = Cell.bool (cellGt (getCell r "zim_AF") (mkRat 1 100)))
    ∧ (gnomadAllCandidates annW.cols ≠ [] →
        "flag_common_gnomad" ∈ outW.prioritised.cols
        ∧ ∀ r ∈ outW.prioritised.rows,
            getCell r "flag_common_gnomad"
              = Cell.bool (cellGt (getCell r "gnomad_AF_max") (mkRat 1 100)))
    ∧ (gnomadAfrCandidates annW.cols ≠ [] →
        "flag_common_gnomad_afr" ∈ outW.prioritised.cols
        ∧ ∀ r ∈ outW.prioritised.rows,
            getCell r "flag_common_gnomad_afr"
              = Cell.bool (cellGt (getCell r "gnomad_AFR_AF_max") (mkRat 1 100))) :=
  claim8_debug_flags annW zimW (mkRat 1 100) (mkRat 1 100) (mkRat 1 20) outW
    (by rfl) (by decide) (by decide) (by decide)

/-! ## Lemmas for the cohort-loader contract -/

theorem filter_beq_singleton (l : List String) (a : String) (h : l.count a = 1) :
    l.filter (fun c => c == a) = [a] := by
  induction l with
  | nil => simp at h
  | cons b rest ih =>
    by_cases hb : b = a
    · subst hb
      have hc : rest.count b = 0 := by
        rw [List.count_cons_self] at h
        omega
      have hnot : ¬ b ∈ rest := by
        intro hin
        have := List.count_pos_iff.mpr hin
        omega
      simp only [List.filter_cons]
      rw [if_pos (by simp)]
      have : rest.filter (fun c => c == b) = [] := by
        rw [List.filter_eq_nil_iff]
        intro x hx hxb
        exact hnot ((by simpa using hxb : x = b) ▸ hx)
      rw [this]
    · simp only [List.filter_cons]
      rw [if_neg (by simp [hb])]
      apply ih
      rw [List.count_cons] at h
      simpa [hb] using h

theorem count_eq_one_of_lower_nodup (l : List String) (a : String)
    (hmem : a ∈ l) (hnodup : (l.map strLower).Nodup) : l.count a = 1 := by
  have hle : l.count a ≤ (l.map strLower).count (strLower a) := by
    rw [List.count, List.count, List.countP_map]
    apply List.countP_mono_left
    intro x _ hx
    have : x = a := by simpa using hx
    simp [this]
  have h1 : (l.map strLower).count (strLower a) ≤ 1 :=
    List.nodup_iff_count_le_one.mp hnodup (strLower a)
  have h2 : 1 ≤ l.count a := List.count_pos_iff.mpr hmem
  omega

theorem strLower_renameStr (m : List (String × String))
    (hm : ∀ p ∈ m, strLower p.2 = strLower p.1) (c : String) :
    strLower (renameStr m c) = strLower c := by
  unfold renameStr
  cases hf : m.find? (fun p => p.1 = c) with
  | none => rfl
  | some p =>
    have hp := List.find?_some hf
    have hpm := List.mem_of_find?_eq_some hf
    have hp1 : p.1 = c := by simpa using hp
    rw [hm p hpm, hp1]

theorem renameCols_cols (t : Table) (m : List (String × String)) :
    (renameCols t m).cols = t.cols.map (renameStr m) := rfl

theorem renameCols_rows (t : Table) (m : List (String × String)) :
    (renameCols t m).rows = t.rows.map (fun r => r.map (fun p => (renameStr m p.1, p.2))) := rfl

theorem renameCols_lower (t : Table) (m : List (String × String))
    (hm : ∀ p ∈ m, strLower p.2 = strLower p.1) :
    (renameCols t m).cols.map strLower = t.cols.map strLower := by
  rw [renameCols_cols, List.map_map]
  exact List.map_congr_left (fun c _ => strLower_renameStr m hm c)

theorem setColWith_cols_of_mem (t : Table) (n : String) (f : Row → Cell)
    (h : n ∈ t.cols) : (setColWith t n f).cols = t.cols := by
  simp [setColWith, h]

theorem setColWith_cols_of_not_mem (t : Table) (n : String) (f : Row → Cell)
    (h : ¬ n ∈ t.cols) : (setColWith t n f).cols = t.cols ++ [n] := by
  simp [setColWith, h]

theorem getCell_rename_row (r : Row) (m : List (String × String)) (k : String)
    (h1 : renameStr m k = k) (h2 : ∀ k2, renameStr m k2 = k → k2 = k) :
    getCell (r.map (fun p => (renameStr m p.1, p.2))) k = getCell r k := by
  induction r with
  | nil => rfl
  | cons p rest ih =>
    obtain ⟨a, b⟩ := p
    simp only [List.map_cons, getCell]
    by_cases ha : renameStr m a = k
    · rw [if_pos ha, if_pos (h2 a ha)]
    · rw [if_neg ha, if_neg (show a ≠ k from fun hh => ha (by rw [hh]; exact h1))]
      exact ih

theorem loadZimAf_ok_spec (df t : Table) (h : loadZimAf df (lowerMap df.cols) = .ok t) :
    "zim_AF" ∈ t.cols
    ∧ ((df.cols.map strLower).Nodup → (t.cols.map strLower).Nodup)
    ∧ (∀ c ∈ df.cols, strLower c ≠ "zim_af" → c ∈ t.cols) := by
  unfold loadZimAf at h
  cases haf : findLast (lowerMap df.cols) "zim_af" with
  | some caf =>
    rw [haf] at h
    have h2 : Except.ok (if caf = "zim_AF" then df else renameCols df [(caf, "zim_AF")])
        = Except.ok t := h
    injection h2 with ht
    obtain ⟨hcafmem, hcaflow⟩ := findLast_lowerMap_some _ _ _ haf
    by_cases hEq : caf = "zim_AF"
    · rw [if_pos hEq] at ht
      subst ht
      exact ⟨hEq ▸ hcafmem, fun hn => hn, fun c hc _ => hc⟩
    · rw [if_neg hEq] at ht
      subst ht
      have hmprop : ∀ p ∈ [(caf, "zim_AF")], strLower p.2 = strLower p.1 := by
        intro p hp
        rw [List.mem_singleton.mp hp]
        show strLower "zim_AF" = strLower caf
        rw [hcaflow]
        rfl
      refine ⟨?_, ?_, ?_⟩
      · have himg : renameStr [(caf, "zim_AF")] caf = "zim_AF" := by
          unfold renameStr
          rw [List.find?_cons_of_pos _ (by simp)]
        rw [renameCols_cols]
        exact List.mem_map.mpr ⟨caf, hcafmem, himg⟩
      · intro hn
        rw [renameCols_lower df _ hmprop]
        exact hn
      · intro c hc hlow
        have hne : caf ≠ c := fun hh => hlow (by rw [← hh]; exact hcaflow)
        have himg : renameStr [(caf, "zim_AF")] c = c := by
          unfold renameStr
          rw [List.find?_cons_of_neg _ (by simp [hne])]
          rfl
        rw [renameCols_cols]
        exact List.mem_map.mpr ⟨c, hc, himg⟩
  | none =>
    rw [haf] at h
    have hnoz : ∀ c ∈ df.cols, strLower c ≠ "zim_af" := by
      intro c hc hl
      have := (findLast_none_iff _ _).mp haf (strLower c, c) (List.mem_map.mpr ⟨c, hc, rfl⟩)
      exact this hl
    cases hac : findLast (lowerMap df.cols) "zim_ac" with
    | none =>
      rw [hac] at h
      cases h
    | some cac =>
      rw [hac] at h
      cases han : findLast (lowerMap df.cols) "zim_an" with
      | none =>
        rw [han] at h
        cases h
      | some can =>
        rw [han] at h
        injection h with ht
        subst ht
        obtain ⟨hacmem, haclow⟩ := findLast_lowerMap_some _ _ _ hac
        obtain ⟨hanmem, hanlow⟩ := findLast_lowerMap_some _ _ _ han
        have hcols1 : (setColWith df cac (fun r => toNumeric (getCell r cac))).cols
            = df.cols := setColWith_cols_of_mem _ _ _ hacmem
        have hcols2 : (setColWith (setColWith df cac (fun r => toNumeric (getCell r cac)))
            can (fun r => toNumeric (getCell r can))).cols = df.cols := by
          rw [setColWith_cols_of_mem, hcols1]
          rw [hcols1]
          exact hanmem
        have hnozaf : ¬ "zim_AF" ∈ (setColWith (setColWith df cac
            (fun r => toNumeric (getCell r cac))) can
            (fun r => toNumeric (getCell r can))).cols := by
          rw [hcols2]
          intro hin
          exact hnoz _ hin (by rfl)
        have hcols3 : (setColWith (setColWith (setColWith df cac
            (fun r => toNumeric (getCell r cac))) can (fun r => toNumeric (getCell r can)))
            "zim_AF" (fun r => pdiv (getCell r cac) (getCell r can))).cols
            = df.cols ++ ["zim_AF"] := by
          rw [setColWith_cols_of_not_mem _ _ _ hnozaf, hcols2]
        refine ⟨?_, ?_, ?_⟩
        · rw [hcols3]
          simp
        · intro hn
          rw [hcols3, List.map_append]
          refine List.Nodup.append hn (by simp) ?_
          intro x hx1 hx2
          obtain ⟨c, hc, hcEq⟩ := List.mem_map.mp hx1
          have hxz : x = "zim_af" := by simpa using hx2
          exact hnoz c hc (by rw [hcEq, hxz])
        · intro c hc _
          rw [hcols3]
          exact List.mem_append_left _ hc

theorem loadZimAf_isOk_iff (df : Table) :
    (∃ t, loadZimAf df (lowerMap df.cols) = .ok t) ↔
      ((∃ c ∈ df.cols, strLower c = "zim_af")
        ∨ ((∃ c ∈ df.cols, strLower c = "zim_ac")
            ∧ (∃ c ∈ df.cols, strLower c = "zim_an"))) := by
  constructor
  · rintro ⟨t, ht⟩
    unfold loadZimAf at ht
    cases haf : findLast (lowerMap df.cols) "zim_af" with
    | some caf =>
      exact Or.inl ((findLast_lowerMap_isSome df.cols "zim_af").mp ⟨caf, haf⟩)
    | none =>
      rw [haf] at ht
      cases hac : findLast (lowerMap df.cols) "zim_ac" with
      | none =>
        rw [hac] at ht
        cases ht
      | some cac =>
        rw [hac] at ht
        cases han : findLast (lowerMap df.cols) "zim_an" with
        | none =>
          rw [han] at ht
          cases ht
        | some can =>
          exact Or.inr ⟨(findLast_lowerMap_isSome df.cols "zim_ac").mp ⟨cac, hac⟩,
            (findLast_lowerMap_isSome df.cols "zim_an").mp ⟨can, han⟩⟩
  · intro h
    unfold loadZimAf
    cases haf : findLast (lowerMap df.cols) "zim_af" with
    | some caf => exact ⟨_, rfl⟩
    | none =>
      rcases h with h | ⟨h1, h2⟩
      · obtain ⟨v, hv⟩ := (findLast_lowerMap_isSome df.cols "zim_af").mpr h
        rw [haf] at hv
        cases hv
      · obtain ⟨cac, hac⟩ := (findLast_lowerMap_isSome df.cols "zim_ac").mpr h1
        obtain ⟨can, han⟩ := (findLast_lowerMap_isSome df.cols "zim_an").mpr h2
        rw [hac, han]
        exact ⟨_, rfl⟩

theorem loadZimAf_none_cases (df dfA : Table)
    (haf : findLast (lowerMap df.cols) "zim_af" = none)
    (h : loadZimAf df (lowerMap df.cols) = .ok dfA) :
    ∃ cac can, findLast (lowerMap df.cols) "zim_ac" = some cac
      ∧ findLast (lowerMap df.cols) "zim_an" = some can := by
  unfold loadZimAf at h
  rw [haf] at h
  cases hac : findLast (lowerMap df.cols) "zim_ac" with
  | none =>
    rw [hac] at h
    cases h
  | some cac =>
    rw [hac] at h
    cases han : findLast (lowerMap df.cols) "zim_an" with
    | none =>
      rw [han] at h
      cases h
    | some can => exact ⟨cac, can, rfl, rfl⟩

theorem loadZimAf_derived_spec (df dfA : Table) (cac can : String)
    (haf : findLast (lowerMap df.cols) "zim_af" = none)
    (hac : findLast (lowerMap df.cols) "zim_ac" = some cac)
    (han : findLast (lowerMap df.cols) "zim_an" = some can)
    (h : loadZimAf df (lowerMap df.cols) = .ok dfA) :
    dfA = setColWith (setColWith (setColWith df cac (fun r => toNumeric (getCell r cac)))
          can (fun r => toNumeric (getCell r can)))
        "zim_AF" (fun r => pdiv (getCell r cac) (getCell r can)) := by
  unfold loadZimAf at h
  rw [haf, hac, han] at h
  have h2 : Except.ok (setColWith (setColWith (setColWith df cac
      (fun r => toNumeric (getCell r cac))) can (fun r => toNumeric (getCell r can)))
        "zim_AF" (fun r => pdiv (getCell r cac) (getCell r can))) = Except.ok dfA := h
  injection h2 with ht
  exact ht.symm

/-- C7 (amended): the cohort loader succeeds exactly when the four
case-insensitive identity columns are present together with either a
direct `zim_AF` column or the `zim_AC`/`zim_AN` pair (otherwise it fails
fatally with a diagnostic); on success — provided no two columns share
the same lowercase form, a case the source leaves undefined and under
which the rename can duplicate labels, see the counterexample — the
result has exactly the five columns `Chr, Start, Ref, Alt, zim_AF`; and
in the derived case the frequency is computed as count/number after
numeric coercion. -/
theorem claim7_cohort_loader (zim : Table) :
    ((∃ t, loadZimDb zim = .ok t) ↔
      ((∃ c ∈ zim.cols, strLower c = "chr") ∧ (∃ c ∈ zim.cols, strLower c = "start")
        ∧ (∃ c ∈ zim.cols, strLower c = "ref") ∧ (∃ c ∈ zim.cols, strLower c = "alt")
        ∧ ((∃ c ∈ zim.cols, strLower c = "zim_af")
            ∨ ((∃ c ∈ zim.cols, strLower c = "zim_ac")
                ∧ (∃ c ∈ zim.cols, strLower c = "zim_an")))))
  ∧ ((zim.cols.map strLower).Nodup →
      ∀ t, loadZimDb zim = .ok t → t.cols = ["Chr", "Start", "Ref", "Alt", "zim_AF"])
  ∧ (∀ t, loadZimDb zim = .ok t → (¬ ∃ c ∈ zim.cols, strLower c = "zim_af") →
      ∃ cac can, findLast (lowerMap zim.cols) "zim_ac" = some cac
        ∧ findLast (lowerMap zim.cols) "zim_an" = some can
        ∧ t.rows.length = zim.rows.length
        ∧ ∀ i (hi : i < zim.rows.length) (hi2 : i < t.rows.length),
            getCell (t.rows.get ⟨i, hi2⟩) "zim_AF"
              = pdiv (toNumeric (getCell (zim.rows.get ⟨i, hi⟩) cac))
                  (toNumeric (getCell (zim.rows.get ⟨i, hi⟩) can))) := by
  refine ⟨⟨?_, ?_⟩, ?_, ?_⟩
  · rintro ⟨t, ht⟩
    obtain ⟨cchr, cstart, cref, calt, dfA, h1, h2, h3, h4, hAf, -⟩ :=
      loadZimDb_ok_spec zim t ht
    exact ⟨(findLast_lowerMap_isSome _ _).mp ⟨cchr, h1⟩,
      (findLast_lowerMap_isSome _ _).mp ⟨cstart, h2⟩,
      (findLast_lowerMap_isSome _ _).mp ⟨cref, h3⟩,
      (findLast_lowerMap_isSome _ _).mp ⟨calt, h4⟩,
      (loadZimAf_isOk_iff zim).mp ⟨dfA, hAf⟩⟩
  · rintro ⟨p1, p2, p3, p4, p5⟩
    obtain ⟨cchr, h1⟩ := (findLast_lowerMap_isSome _ _).mpr p1
    obtain ⟨cstart, h2⟩ := (findLast_lowerMap_isSome _ _).mpr p2
    obtain ⟨cref, h3⟩ := (findLast_lowerMap_isSome _ _).mpr p3
    obtain ⟨calt, h4⟩ := (findLast_lowerMap_isSome _ _).mpr p4
    obtain ⟨dfA, hAf⟩ := (loadZimAf_isOk_iff zim).mpr p5
    refine ⟨selectCols (renameCols dfA [(cchr, "Chr"), (cstart, "Start"), (cref, "Ref"),
      (calt, "Alt")]) ["Chr", "Start", "Ref", "Alt", "zim_AF"], ?_⟩
    unfold loadZimDb
    simp only [h1, h2, h3, h4, hAf]
  · intro hnodup t ht
    obtain ⟨cchr, cstart, cref, calt, dfA, h1, h2, h3, h4, hAf, htEq⟩ :=
      loadZimDb_ok_spec zim t ht
    obtain ⟨hmChr, hlChr⟩ := findLast_lowerMap_some _ _ _ h1
    obtain ⟨hmStart, hlStart⟩ := findLast_lowerMap_some _ _ _ h2
    obtain ⟨hmRef, hlRef⟩ := findLast_lowerMap_some _ _ _ h3
    obtain ⟨hmAlt, hlAlt⟩ := findLast_lowerMap_some _ _ _ h4
    obtain ⟨hafmem, hafnodup, hafpres⟩ := loadZimAf_ok_spec zim dfA hAf
    have hne12 : cchr ≠ cstart := fun hh => by
      rw [hh, hlStart] at hlChr
      exact absurd hlChr (by decide)
    have hne13 : cchr ≠ cref := fun hh => by
      rw [hh, hlRef] at hlChr
      exact absurd hlChr (by decide)
    have hne14 : cchr ≠ calt := fun hh => by
      rw [hh, hlAlt] at hlChr
      exact absurd hlChr (by decide)
    have hne23 : cstart ≠ cref := fun hh => by
      rw [hh, hlRef] at hlStart
      exact absurd hlStart (by decide)
    have hne24 : cstart ≠ calt := fun hh => by
      rw [hh, hlAlt] at hlStart
      exact absurd hlStart (by decide)
    have hne34 : cref ≠ calt := fun hh => by
      rw [hh, hlAlt] at hlRef
      exact absurd hlRef (by decide)
    have hneZ1 : cchr ≠ "zim_AF" := fun hh => by
      rw [hh] at hlChr
      exact absurd hlChr (by decide)
    have hneZ2 : cstart ≠ "zim_AF" := fun hh => by
      rw [hh] at hlStart
      exact absurd hlStart (by decide)
    have hneZ3 : cref ≠ "zim_AF" := fun hh => by
      rw [hh] at hlRef
      exact absurd hlRef (by decide)
    have hneZ4 : calt ≠ "zim_AF" := fun hh => by
      rw [hh] at hlAlt
      exact absurd hlAlt (by decide)
    have hrChr : renameStr [(cchr, "Chr"), (cstart, "Start"), (cref, "Ref"), (calt, "Alt")]
        cchr = "Chr" := by
      unfold renameStr
      rw [List.find?_cons_of_pos _ (by simp)]
    have hrStart : renameStr [(cchr, "Chr"), (cstart, "Start"), (cref, "Ref"), (calt, "Alt")]
        cstart = "Start" := by
      unfold renameStr
      rw [List.find?_cons_of_neg _ (by simp [hne12]), List.find?_cons_of_pos _ (by simp)]
    have hrRef : renameStr [(cchr, "Chr"), (cstart, "Start"), (cref, "Ref"), (calt, "Alt")]
        cref = "Ref" := by
      unfold renameStr
      rw [List.find?_cons_of_neg _ (by simp [hne13]), List.find?_cons_of_neg _ (by simp [hne23]),
        List.find?_cons_of_pos _ (by simp)]
    have hrAlt : renameStr [(cchr, "Chr"), (cstart, "Start"), (cref, "Ref"), (calt, "Alt")]
        calt = "Alt" := by
      unfold renameStr
      rw [List.find?_cons_of_neg _ (by simp [hne14]), List.find?_cons_of_neg _ (by simp [hne24]),
        List.find?_cons_of_neg _ (by simp [hne34]), List.find?_cons_of_pos _ (by simp)]
    have hrZaf : renameStr [(cchr, "Chr"), (cstart, "Start"), (cref, "Ref"), (calt, "Alt")]
        "zim_AF" = "zim_AF" := by
      unfold renameStr
      rw [List.find?_cons_of_neg _ (by simp [hneZ1]),
        List.find?_cons_of_neg _ (by simp [hneZ2]),
        List.find?_cons_of_neg _ (by simp [hneZ3]),
        List.find?_cons_of_neg _ (by simp [hneZ4])]
      rfl
    have hmprop : ∀ p ∈ [(cchr, "Chr"), (cstart, "Start"), (cref, "Ref"), (calt, "Alt")],
        strLower p.2 = strLower p.1 := by
      intro p hp
      simp only [List.mem_cons, List.mem_singleton] at hp
      rcases hp with hp | hp | hp | hp | hp
      · rw [hp]
        show strLower "Chr" = strLower cchr
        rw [hlChr]
        decide
      · rw [hp]
        show strLower "Start" = strLower cstart
        rw [hlStart]
        decide
      · rw [hp]
        show strLower "Ref" = strLower cref
        rw [hlRef]
        decide
      · rw [hp]
        show strLower "Alt" = strLower calt
        rw [hlAlt]
        decide
      · cases hp
    have hmemA1 : cchr ∈ dfA.cols := hafpres cchr hmChr (by rw [hlChr]; decide)
    have hmemA2 : cstart ∈ dfA.cols := hafpres cstart hmStart (by rw [hlStart]; decide)
    have hmemA3 : cref ∈ dfA.cols := hafpres cref hmRef (by rw [hlRef]; decide)
    have hmemA4 : calt ∈ dfA.cols := hafpres calt hmAlt (by rw [hlAlt]; decide)
    have hmemB1 : "Chr" ∈ (renameCols dfA
        [(cchr, "Chr"), (cstart, "Start"), (cref, "Ref"), (calt, "Alt")]).cols := by
      rw [renameCols_cols]
      exact List.mem_map.mpr ⟨cchr, hmemA1, hrChr⟩
    have hmemB2 : "Start" ∈ (renameCols dfA
        [(cchr, "Chr"), (cstart, "Start"), (cref, "Ref"), (calt, "Alt")]).cols := by
      rw [renameCols_cols]
      exact List.mem_map.mpr ⟨cstart, hmemA2, hrStart⟩
    have hmemB3 : "Ref" ∈ (renameCols dfA
        [(cchr, "Chr"), (cstart, "Start"), (cref, "Ref"), (calt, "Alt")]).cols := by
      rw [renameCols_cols]
      exact List.mem_map.mpr ⟨cref, hmemA3, hrRef⟩
    have hmemB4 : "Alt" ∈ (renameCols dfA
        [(cchr, "Chr"), (cstart, "Start"), (cref, "Ref"), (calt, "Alt")]).cols := by
      rw [renameCols_cols]
      exact List.mem_map.mpr ⟨calt, hmemA4, hrAlt⟩
    have hmemB5 : "zim_AF" ∈ (renameCols dfA
        [(cchr, "Chr"), (cstart, "Start"), (cref, "Ref"), (calt, "Alt")]).cols := by
      rw [renameCols_cols]
      exact List.mem_map.mpr ⟨"zim_AF", hafmem, hrZaf⟩
    have hnodB : ((renameCols dfA
        [(cchr, "Chr"), (cstart, "Start"), (cref, "Ref"), (calt, "Alt")]).cols.map
          strLower).Nodup := by
      rw [renameCols_lower _ _ hmprop]
      exact hafnodup hnodup
    rw [htEq]
    show ((["Chr", "Start", "Ref", "Alt", "zim_AF"].map
      (fun n => (renameCols dfA [(cchr, "Chr"), (cstart, "Start"), (cref, "Ref"),
        (calt, "Alt")]).cols.filter (fun c => c == n))).flatten)
      = ["Chr", "Start", "Ref", "Alt", "zim_AF"]
    simp only [List.map_cons, List.map_nil]
    rw [filter_beq_singleton _ _ (count_eq_one_of_lower_nodup _ _ hmemB1 hnodB),
      filter_beq_singleton _ _ (count_eq_one_of_lower_nodup _ _ hmemB2 hnodB),
      filter_beq_singleton _ _ (count_eq_one_of_lower_nodup _ _ hmemB3 hnodB),
      filter_beq_singleton _ _ (count_eq_one_of_lower_nodup _ _ hmemB4 hnodB),
      filter_beq_singleton _ _ (count_eq_one_of_lower_nodup _ _ hmemB5 hnodB)]
    rfl
  · intro t ht hno
    obtain ⟨cchr, cstart, cref, calt, dfA, h1, h2, h3, h4, hAf, htEq⟩ :=
      loadZimDb_ok_spec zim t ht
    obtain ⟨hmChr, hlChr⟩ := findLast_lowerMap_some _ _ _ h1
    obtain ⟨hmStart, hlStart⟩ := findLast_lowerMap_some _ _ _ h2
    obtain ⟨hmRef, hlRef⟩ := findLast_lowerMap_some _ _ _ h3
    obtain ⟨hmAlt, hlAlt⟩ := findLast_lowerMap_some _ _ _ h4
    have haf : findLast (lowerMap zim.cols) "zim_af" = none := by
      cases haf2 : findLast (lowerMap zim.cols) "zim_af" with
      | none => rfl
      | some v => exact absurd ((findLast_lowerMap_isSome _ _).mp ⟨v, haf2⟩) hno
    obtain ⟨cac, can, hac, han⟩ := loadZimAf_none_cases zim dfA haf hAf
    obtain ⟨hmAc, hlAc⟩ := findLast_lowerMap_some _ _ _ hac
    obtain ⟨hmAn, hlAn⟩ := findLast_lowerMap_some _ _ _ han
    have hneacan : cac ≠ can := fun hh => by
      rw [hh, hlAn] at hlAc
      exact absurd hlAc (by decide)
    have hchain := loadZimAf_derived_spec zim dfA cac can haf hac han hAf
    have hneZ1 : cchr ≠ "zim_AF" := fun hh => by
      rw [hh] at hlChr
      exact absurd hlChr (by decide)
    have hneZ2 : cstart ≠ "zim_AF" := fun hh => by
      rw [hh] at hlStart
      exact absurd hlStart (by decide)
    have hneZ3 : cref ≠ "zim_AF" := fun hh => by
      rw [hh] at hlRef
      exact absurd hlRef (by decide)
    have hneZ4 : calt ≠ "zim_AF" := fun hh => by
      rw [hh] at hlAlt
      exact absurd hlAlt (by decide)
    have hrZaf : renameStr [(cchr, "Chr"), (cstart, "Start"), (cref, "Ref"), (calt, "Alt")]
        "zim_AF" = "zim_AF" := by
      unfold renameStr
      rw [List.find?_cons_of_neg _ (by simp [hneZ1]),
        List.find?_cons_of_neg _ (by simp [hneZ2]),
        List.find?_cons_of_neg _ (by simp [hneZ3]),
        List.find?_cons_of_neg _ (by simp [hneZ4])]
      rfl
    have hrZonly : ∀ k2, renameStr [(cchr, "Chr"), (cstart, "Start"), (cref, "Ref"),
        (calt, "Alt")] k2 = "zim_AF" → k2 = "zim_AF" := by
      intro k2 hk2
      unfold renameStr at hk2
      cases hf : List.find? (fun p => p.1 = k2)
          [(cchr, "Chr"), (cstart, "Start"), (cref, "Ref"), (calt, "Alt")] with
      | none =>
        rw [hf] at hk2
        exact hk2
      | some p =>
        rw [hf] at hk2
        have hk3 : p.2 = "zim_AF" := hk2
        have hpm := List.mem_of_find?_eq_some hf
        fin_cases hpm <;> simp at hk3
    have hmemAz : "zim_AF" ∈ dfA.cols := (loadZimAf_ok_spec zim dfA hAf).1
    have hmemB5 : "zim_AF" ∈ (renameCols dfA
        [(cchr, "Chr"), (cstart, "Start"), (cref, "Ref"), (calt, "Alt")]).cols := by
      rw [renameCols_cols]
      exact List.mem_map.mpr ⟨"zim_AF", hmemAz, hrZaf⟩
    have hselmem : "zim_AF" ∈ ((["Chr", "Start", "Ref", "Alt", "zim_AF"].map
        (fun n => (renameCols dfA [(cchr, "Chr"), (cstart, "Start"), (cref, "Ref"),
          (calt, "Alt")]).cols.filter (fun c => c == n))).flatten) := by
      apply List.mem_flatten.mpr
      refine ⟨(renameCols dfA [(cchr, "Chr"), (cstart, "Start"), (cref, "Ref"),
        (calt, "Alt")]).cols.filter (fun c => c == "zim_AF"), ?_, ?_⟩
      · exact List.mem_map.mpr ⟨"zim_AF", by decide, rfl⟩
      · exact List.mem_filter.mpr ⟨hmemB5, by simp⟩
    have hlen1 : (setColWith zim cac (fun r => toNumeric (getCell r cac))).rows.length
        = zim.rows.length := by
      rw [setColWith_rows, List.length_map]
    have hlen2 : (setColWith (setColWith zim cac (fun r => toNumeric (getCell r cac))) can
        (fun r => toNumeric (getCell r can))).rows.length = zim.rows.length := by
      rw [setColWith_rows, List.length_map, hlen1]
    have hlenA : dfA.rows.length = zim.rows.length := by
      rw [hchain, setColWith_rows, List.length_map, hlen2]
    have hlenB : (renameCols dfA
        [(cchr, "Chr"), (cstart, "Start"), (cref, "Ref"), (calt, "Alt")]).rows.length
        = zim.rows.length := by
      rw [renameCols_rows, List.length_map, hlenA]
    have hlenT : t.rows.length = zim.rows.length := by
      rw [htEq]
      show ((renameCols dfA [(cchr, "Chr"), (cstart, "Start"), (cref, "Ref"),
        (calt, "Alt")]).rows.map _).length = zim.rows.length
      rw [List.length_map, hlenB]
    refine ⟨cac, can, hac, han, hlenT, ?_⟩
    intro i hi hi2
    have hiB : i < (renameCols dfA [(cchr, "Chr"), (cstart, "Start"), (cref, "Ref"),
        (calt, "Alt")]).rows.length := by
      rw [hlenB]
      exact hi
    have hiA : i < dfA.rows.length := by
      rw [hlenA]
      exact hi
    have hi1 : i < (setColWith zim cac (fun r => toNumeric (getCell r cac))).rows.length := by
      rw [hlen1]
      exact hi
    have hi2b : i < (setColWith (setColWith zim cac (fun r => toNumeric (getCell r cac))) can
        (fun r => toNumeric (getCell r can))).rows.length := by
      rw [hlen2]
      exact hi
    have hstep1 : (setColWith zim cac (fun r => toNumeric (getCell r cac))).rows.get ⟨i, hi1⟩
        = setCell (zim.rows.get ⟨i, hi⟩) cac (toNumeric (getCell (zim.rows.get ⟨i, hi⟩) cac)) :=
      get_map_of_eq _ _ _ (setColWith_rows _ _ _) i hi hi1
    have hstep2 : (setColWith (setColWith zim cac (fun r => toNumeric (getCell r cac))) can
        (fun r => toNumeric (getCell r can))).rows.get ⟨i, hi2b⟩
        = setCell ((setColWith zim cac (fun r => toNumeric (getCell r cac))).rows.get ⟨i, hi1⟩)
            can (toNumeric (getCell ((setColWith zim cac
              (fun r => toNumeric (getCell r cac))).rows.get ⟨i, hi1⟩) can)) :=
      get_map_of_eq _ _ _ (setColWith_rows _ _ _) i hi1 hi2b
    have hstepA : dfA.rows.get ⟨i, hiA⟩
        = setCell ((setColWith (setColWith zim cac (fun r => toNumeric (getCell r cac))) can
            (fun r => toNumeric (getCell r can))).rows.get ⟨i, hi2b⟩) "zim_AF"
            (pdiv (getCell ((setColWith (setColWith zim cac
                (fun r => toNumeric (getCell r cac))) can
                (fun r => toNumeric (getCell r can))).rows.get ⟨i, hi2b⟩) cac)
              (getCell ((setColWith (setColWith zim cac
                (fun r => toNumeric (getCell r cac))) can
                (fun r => toNumeric (getCell r can))).rows.get ⟨i, hi2b⟩) can)) :=
      get_map_of_eq _ _ _ (by rw [hchain]; exact setColWith_rows _ _ _) i hi2b hiA
    have hstepB : (renameCols dfA [(cchr, "Chr"), (cstart, "Start"), (cref, "Ref"),
        (calt, "Alt")]).rows.get ⟨i, hiB⟩
        = (dfA.rows.get ⟨i, hiA⟩).map (fun p => (renameStr [(cchr, "Chr"), (cstart, "Start"),
            (cref, "Ref"), (calt, "Alt")] p.1, p.2)) :=
      get_map_of_eq _ _ _ (renameCols_rows _ _) i hiA hiB
    have hstepT : t.rows.get ⟨i, hi2⟩
        = ((["Chr", "Start", "Ref", "Alt", "zim_AF"].map
            (fun n => (renameCols dfA [(cchr, "Chr"), (cstart, "Start"), (cref, "Ref"),
              (calt, "Alt")]).cols.filter (fun c => c == n))).flatten).map
            (fun c => (c, getCell ((renameCols dfA [(cchr, "Chr"), (cstart, "Start"),
              (cref, "Ref"), (calt, "Alt")]).rows.get ⟨i, hiB⟩) c)) :=
      get_map_of_eq _ _ _ (by rw [htEq]; rfl) i hiB hi2
    rw [hstepT, getCell_map_pairs, if_pos (List.elem_eq_true_of_mem hselmem)]
    rw [hstepB, getCell_rename_row _ _ _ hrZaf hrZonly]
    rw [hstepA, getCell_setCell_same]
    rw [hstep2, hstep1]
    rw [getCell_setCell_ne _ _ _ _ hneacan.symm, getCell_setCell_same]
    rw [getCell_setCell_same, getCell_setCell_ne _ _ _ _ hneacan]

/-- Counterexample for C7: on a cohort table carrying both `Chr` and
`chr` (duplicate case-variants, which the spec calls undefined
behaviour), the loader succeeds but returns SIX columns — the rename
turns `chr` into a second `Chr` label and the five-name selection keeps
both — so the "exactly five columns" contract fails as stated. -/
theorem claim7_counterexample :
    loadZimDb zimC7dup
        = .ok { cols := ["Chr", "Chr", "Start", "Ref", "Alt", "zim_AF"], rows := [] }
    ∧ (["Chr", "Chr", "Start", "Ref", "Alt", "zim_AF"] : List String)
        ≠ ["Chr", "Start", "Ref", "Alt", "zim_AF"] :=
  ⟨rfl, by decide⟩

/-- Witness for the amended C7 at `zimC7w` (mixed-case identity columns,
count/number form). -/
theorem claim7_witness :
    (∃ t, loadZimDb zimC7w = .ok t)
  ∧ tC7.cols = ["Chr", "Start", "Ref", "Alt", "zim_AF"]
  ∧ getCell (tC7.rows.getD 0 []) "zim_AF" = Cell.num (mkRat 1 10) :=
  ⟨(claim7_cohort_loader zimC7w).1.mpr
      ⟨⟨"CHR", by decide, by decide⟩, ⟨"start", by decide, by decide⟩,
       ⟨"Ref", by decide, by decide⟩, ⟨"alt", by decide, by decide⟩,
       Or.inr ⟨⟨"zim_AC", by decide, by decide⟩, ⟨"zim_AN", by decide, by decide⟩⟩⟩,
   (claim7_cohort_loader zimC7w).2.1 (by decide) tC7 (by rfl),
   by rfl⟩

end Zim
